import Mathlib

/-!
Verification of the data-layer validation/debug engine of the
`tealium-mcp-server` repository, shallowly embedded in Lean 4.

JavaScript values flowing through the engine are modelled by the
`JValue` type below (a JSON-like tree extended with the JS `undefined`
sentinel).  JS numbers are modelled as integers (`Int`): every numeric
constant exercised by the engine's checks and by the theorems here is
integral; fractional values would only change the text of one warning
message in `checkPriceValues` (noted there).  JS strings are Lean
`String`s; the repository's data is ASCII, and the case-conversion
helpers below implement the ASCII fragment of `toLowerCase` /
`toUpperCase`.

Objects are association lists preserving insertion order, matching
`Object.entries` enumeration order.  The arrays and field lists are
separate mutually-inductive types (`JArr`, `JFields`) so that every
traversal of the engine can be defined by mutual structural recursion
and therefore evaluates inside the kernel.
-/

mutual
inductive JValue where
  | null
  | undef
  | bool (b : Bool)
  | num (n : Int)
  | str (s : String)
  | arr (elems : JArr)
  | obj (fields : JFields)

inductive JArr where
  | nil
  | cons (head : JValue) (tail : JArr)

inductive JFields where
  | nil
  | cons (key : String) (val : JValue) (tail : JFields)
end

mutual
def JValue.beq : JValue → JValue → Bool
  | .null, .null => true
  | .undef, .undef => true
  | .bool a, .bool b => a == b
  | .num a, .num b => a == b
  | .str a, .str b => a == b
  | .arr xs, .arr ys => JArr.beq xs ys
  | .obj fs, .obj gs => JFields.beq fs gs
  | _, _ => false

def JArr.beq : JArr → JArr → Bool
  | .nil, .nil => true
  | .cons x xs, .cons y ys => JValue.beq x y && JArr.beq xs ys
  | _, _ => false

def JFields.beq : JFields → JFields → Bool
  | .nil, .nil => true
  | .cons k v fs, .cons k' v' gs => k == k' && JValue.beq v v' && JFields.beq fs gs
  | _, _ => false
end

mutual
theorem jvalueBeq_iff : ∀ a b : JValue, JValue.beq a b = true ↔ a = b
  | .null, b => by cases b <;> simp [JValue.beq]
  | .undef, b => by cases b <;> simp [JValue.beq]
  | .bool x, b => by cases b <;> simp [JValue.beq]
  | .num x, b => by cases b <;> simp [JValue.beq]
  | .str x, b => by cases b <;> simp [JValue.beq]
  | .arr xs, b => by cases b <;> simp [JValue.beq, jarrBeq_iff xs]
  | .obj fs, b => by cases b <;> simp [JValue.beq, jfieldsBeq_iff fs]

theorem jarrBeq_iff : ∀ a b : JArr, JArr.beq a b = true ↔ a = b
  | .nil, b => by cases b <;> simp [JArr.beq]
  | .cons x xs, b => by cases b <;> simp [JArr.beq, jvalueBeq_iff x, jarrBeq_iff xs]

theorem jfieldsBeq_iff : ∀ a b : JFields, JFields.beq a b = true ↔ a = b
  | .nil, b => by cases b <;> simp [JFields.beq]
  | .cons k v fs, b => by
      cases b <;> simp [JFields.beq, jvalueBeq_iff v, jfieldsBeq_iff fs, and_assoc]
end

instance : DecidableEq JValue := fun a b => decidable_of_iff _ (jvalueBeq_iff a b)
instance : DecidableEq JArr := fun a b => decidable_of_iff _ (jarrBeq_iff a b)
instance : DecidableEq JFields := fun a b => decidable_of_iff _ (jfieldsBeq_iff a b)

instance : BEq JValue := ⟨JValue.beq⟩

instance : LawfulBEq JValue :=
  ⟨fun h => (jvalueBeq_iff _ _).mp h, fun {a} => (jvalueBeq_iff a a).mpr rfl⟩

theorem JValue.beq_eq_decide (a b : JValue) : (a == b) = decide (a = b) := by
  by_cases h : a = b
  · simp [h, BEq.beq, (jvalueBeq_iff b b).mpr rfl]
  · simp only [h, decide_False]
    rcases hb : JValue.beq a b with _ | _
    · exact hb
    · exact absurd ((jvalueBeq_iff a b).mp hb) h

/-- Conversion from an ordinary list, used to write down concrete documents. -/
def JFields.ofList : List (String × JValue) → JFields
  | [] => .nil
  | (k, v) :: rest => .cons k v (JFields.ofList rest)

def JArr.ofList : List JValue → JArr
  | [] => .nil
  | v :: rest => .cons v (JArr.ofList rest)

/-- View of a field list as an ordinary list, used in theorem statements. -/
def JFields.toList : JFields → List (String × JValue)
  | .nil => []
  | .cons k v rest => (k, v) :: JFields.toList rest

def JArr.toList : JArr → List JValue
  | .nil => []
  | .cons v rest => v :: JArr.toList rest

def jobj (l : List (String × JValue)) : JValue := .obj (JFields.ofList l)
def jarr (l : List JValue) : JValue := .arr (JArr.ofList l)

/-- `isRecord` from `src/types/guards.ts`: a non-null object that is not an
array (`typeof value === 'object' && value !== null && !Array.isArray(value)`). -/
def isRecord : JValue → Bool
  | .obj _ => true
  | _ => false

/-- First binding of a key in a field list (JS objects cannot contain
duplicate keys; lookup takes the first binding). -/
def JFields.find? : JFields → String → Option JValue
  | .nil, _ => none
  | .cons key val rest, k => if key = k then some val else JFields.find? rest k

/-- JS property access `v[k]` as used by the engine: reading a property off a
record yields the stored value, and every other read (absent key, or access
through `?.` on a non-record) yields `undefined`. -/
def jget (v : JValue) (k : String) : JValue :=
  match v with
  | .obj fs => (fs.find? k).getD .undef
  | _ => (.undef)

/-- JS `typeof`. -/
def jsTypeof : JValue → String
  | .undef => "undefined"
  | .null => "object"
  | .bool _ => "boolean"
  | .num _ => "number"
  | .str _ => "string"
  | .arr _ => "object"
  | .obj _ => "object"

mutual
/-- JS `String(v)` coercion for the values interpolated into messages.
Arrays stringify as their comma-joined elements, plain objects as
`[object Object]`. -/
def jsToStr : JValue → String
  | .null => "null"
  | .undef => "undefined"
  | .bool b => if b then "true" else "false"
  | .num n => toString n
  | .str s => s
  | .arr xs => jsToStrArr xs
  | .obj _ => "[object Object]"

def jsToStrArr : JArr → String
  | .nil => ""
  | .cons v .nil => jsToStr v
  | .cons v rest => jsToStr v ++ "," ++ jsToStrArr rest
end

/-- Path joining used by every traversal:
`path !== '' ? path + '.' + key : key`. -/
def joinPath (path key : String) : String :=
  if path = "" then key else path ++ "." ++ key

/-- ASCII `toLowerCase`. -/
def strLower (s : String) : String := ⟨s.data.map Char.toLower⟩

/-- ASCII `toUpperCase`. -/
def strUpper (s : String) : String := ⟨s.data.map Char.toUpper⟩

section StringLemmas

theorem strData_append (a b : String) : (a ++ b).data = a.data ++ b.data := by
  cases a; cases b; rfl

theorem strExt {a b : String} (h : a.data = b.data) : a = b := by
  cases a; cases b; exact congrArg String.mk h

theorem strNe_of_data_ne {a b : String} (h : a.data ≠ b.data) : a ≠ b :=
  fun hab => h (congrArg String.data hab)

theorem strNe_of_head_ne {a b : String} (h : a.data.head? ≠ b.data.head?) : a ≠ b :=
  strNe_of_data_ne fun hd => h (congrArg List.head? hd)

theorem strNe_of_last_ne {a b : String} (h : a.data.getLast? ≠ b.data.getLast?) : a ≠ b :=
  strNe_of_data_ne fun hd => h (congrArg List.getLast? hd)

theorem strAppend_left_cancel {p a b : String} (h : p ++ a = p ++ b) : a = b := by
  have hd : p.data ++ a.data = p.data ++ b.data := by
    rw [← strData_append, ← strData_append, h]
  exact strExt (List.append_cancel_left hd)

theorem strAppend_right_cancel {p a b : String} (h : a ++ p = b ++ p) : a = b := by
  have hd : a.data ++ p.data = b.data ++ p.data := by
    rw [← strData_append, ← strData_append, h]
  exact strExt (List.append_cancel_right hd)

/-- Head of `lit ++ k ++ lit'` is the head of `lit` (for non-empty `lit`). -/
theorem strHead_append {a : String} (b : String) {c : Char}
    (h : a.data.head? = some c) : (a ++ b).data.head? = some c := by
  rw [strData_append]
  cases ha : a.data with
  | nil => rw [ha] at h; exact absurd h (by simp)
  | cons x xs => rw [ha] at h; simpa using h

theorem strLast_append (a : String) {b : String} {c : Char}
    (h : b.data.getLast? = some c) : (a ++ b).data.getLast? = some c := by
  rw [strData_append, List.getLast?_append]
  rw [h]; rfl

end StringLemmas

/-! ## Type guards (`src/types/guards.ts`)

Each guard mirrors the corresponding `is...Data` predicate.  A field is
"absent or of type T" exactly when the JS check
`value.f !== undefined && typeof value.f !== 'T'` does not fail. -/

def isStringV : JValue → Bool
  | .str _ => true
  | _ => false

def isNumV : JValue → Bool
  | .num _ => true
  | _ => false

def isBoolV : JValue → Bool
  | .bool _ => true
  | _ => false

def optStr (v : JValue) : Bool := v = .undef || isStringV v
def optNum (v : JValue) : Bool := v = .undef || isNumV v
def optBool (v : JValue) : Bool := v = .undef || isBoolV v

def isPageData (v : JValue) : Bool :=
  isRecord v && isStringV (jget v "pageName")

def isUserData (v : JValue) : Bool :=
  isRecord v && optStr (jget v "userId") && optStr (jget v "visitorId") &&
    optStr (jget v "userType") && optBool (jget v "isLoggedIn") &&
    optStr (jget v "loyaltyTier") && optNum (jget v "loyaltyPoints")

def isEventData (v : JValue) : Bool :=
  isRecord v && isStringV (jget v "eventName")

def isProductData (v : JValue) : Bool :=
  isRecord v && isStringV (jget v "productId") && isStringV (jget v "productName")

def JArr.all (p : JValue → Bool) : JArr → Bool
  | .nil => true
  | .cons v rest => p v && JArr.all p rest

def isProductDataArray : JValue → Bool
  | .arr xs => xs.all isProductData
  | _ => false

def isTransactionData (v : JValue) : Bool :=
  isRecord v && isStringV (jget v "transactionId") && isNumV (jget v "transactionTotal")

def isHotelSearchData (v : JValue) : Bool :=
  isRecord v && optStr (jget v "searchDestination") && optStr (jget v "searchCheckIn") &&
    optStr (jget v "searchCheckOut") && optNum (jget v "searchAdults") &&
    optNum (jget v "searchChildren") && optNum (jget v "searchRooms") &&
    optBool (jget v "searchFlexibleDates")

def isHotelData (v : JValue) : Bool :=
  isRecord v && isStringV (jget v "hotelCode") && isStringV (jget v "hotelName")

def isRoomData (v : JValue) : Bool :=
  isRecord v && isStringV (jget v "roomType")

def isBookingData (v : JValue) : Bool :=
  isRecord v && isStringV (jget v "bookingCheckIn") && isStringV (jget v "bookingCheckOut") &&
    isNumV (jget v "bookingNights") && isNumV (jget v "bookingAdults") &&
    isNumV (jget v "bookingRooms") && isNumV (jget v "bookingTotal") &&
    isStringV (jget v "bookingCurrency")

def isGuestData (v : JValue) : Bool :=
  isRecord v &&
    (jget v "guestType" = .undef || jget v "guestType" = .str "new" ||
      jget v "guestType" = .str "returning" || jget v "guestType" = .str "loyalty") &&
    optStr (jget v "guestLoyaltyId") && optStr (jget v "guestLoyaltyTier") &&
    optNum (jget v "guestLoyaltyPoints") &&
    (jget v "guestPreferences" = .undef ||
      (match jget v "guestPreferences" with
       | .arr xs => xs.all isStringV
       | _ => false))

def optionalSection (g : JValue → Bool) (v : JValue) : Bool :=
  v = .undef || g v

/-- `isTealiumDataLayer` from `src/types/guards.ts`: the minimal domain
shape predicate guarding the business-rule validator and the debug engine. -/
def isTealiumDataLayer (v : JValue) : Bool :=
  isRecord v &&
    optionalSection isPageData (jget v "page") &&
    optionalSection isUserData (jget v "user") &&
    optionalSection isEventData (jget v "event") &&
    optionalSection isProductData (jget v "product") &&
    optionalSection isProductDataArray (jget v "products") &&
    optionalSection isTransactionData (jget v "transaction") &&
    optionalSection isHotelSearchData (jget v "search") &&
    optionalSection isHotelData (jget v "hotel") &&
    optionalSection isRoomData (jget v "room") &&
    optionalSection isBookingData (jget v "booking") &&
    optionalSection isGuestData (jget v "guest")

/-! ## Result structures (`src/types/result.ts`) -/

structure ValidationError where
  path : String
  message : String
  value : Option JValue := none
  expected : Option String := none
  deriving DecidableEq

structure ValidationWarning where
  path : String
  message : String
  suggestion : Option String := none
  deriving DecidableEq

structure ValidationResult where
  isValid : Bool
  errors : List ValidationError
  warnings : List ValidationWarning
  suggestions : List String
  summary : String
  deriving DecidableEq

/-! ## Naming convention checker (`src/validators/naming.ts`) -/

/-- `^[a-z][a-zA-Z0-9]*$` -/
def isCamelCase (s : String) : Bool :=
  match s.data with
  | [] => false
  | c :: rest => c.isLower && rest.all (fun d => d.isAlpha || d.isDigit)

def KNOWN_PREFIXES : List String :=
  ["page", "user", "event", "product", "transaction",
   "search", "hotel", "room", "booking", "guest"]

def RESERVED_WORDS : List String :=
  ["undefined", "null", "true", "false", "function", "object"]

/-- The separator class `[-_\s]` of the camel-case rewriter (`\s` taken as
the ASCII whitespace characters). -/
def isSepChar (c : Char) : Bool :=
  c = '-' || c = '_' || c = ' ' || c = '\t' || c = '\n' || c = '\r' ||
    c = '\x0b' || c = '\x0c'

mutual
/-- `str.replace(/[-_\s]+(.)?/g, (_, c) => c ? c.toUpperCase() : '')`:
drop each run of separators and uppercase the character following it. -/
def camelScan : List Char → List Char
  | [] => []
  | c :: rest => if isSepChar c then camelAfterSep rest else c :: camelScan rest

def camelAfterSep : List Char → List Char
  | [] => []
  | c :: rest => if isSepChar c then camelAfterSep rest else c.toUpper :: camelScan rest
end

/-- `toCamelCase` from `src/validators/naming.ts`: strip `-`/`_`/whitespace
separator runs, uppercasing the following character, then lowercase the
first character (`.replace(/^(.)/, c => c.toLowerCase())`). -/
def toCamelCase (s : String) : String :=
  ⟨match camelScan s.data with
    | [] => []
    | c :: rest => c.toLower :: rest⟩

def camelMsg (k : String) : String :=
  "Variable name \"" ++ k ++ "\" is not in camelCase"

def camelSuggestion (k : String) : String :=
  "Consider renaming to \"" ++ toCamelCase k ++ "\""

def camelWarning (currentPath k : String) : ValidationWarning :=
  { path := currentPath, message := camelMsg k, suggestion := some (camelSuggestion k) }

def reservedMsg (k : String) : String :=
  "\"" ++ k ++ "\" is a reserved word and should not be used as a variable name"

def tooShortMsg (k : String) : String :=
  "Variable name \"" ++ k ++ "\" is too short"

def abbrevMsg (k : String) : String :=
  "Variable name \"" ++ k ++ "\" appears to be an abbreviation"

/-- The warnings produced for one key of a record, in source order:
camel-case check, reserved word, single character, all-caps abbreviation. -/
def keyWarnings (k currentPath : String) : List ValidationWarning :=
  (if !isCamelCase k && !KNOWN_PREFIXES.contains k then [camelWarning currentPath k] else [])
  ++ (if RESERVED_WORDS.contains (strLower k) then
        [{ path := currentPath, message := reservedMsg k,
           suggestion := some "Use a more descriptive name" }] else [])
  ++ (if k.length = 1 then
        [{ path := currentPath, message := tooShortMsg k,
           suggestion := some "Use a more descriptive name" }] else [])
  ++ (if k.length ≤ 3 && k = strUpper k && k ≠ "id" then
        [{ path := currentPath, message := abbrevMsg k,
           suggestion := some "Use full words for better clarity" }] else [])

mutual
/-- `checkNamingConventions` from `src/validators/naming.ts`, over the
entries of a record; recurses into nested records only. -/
def checkNamingConventions : JFields → String → List ValidationWarning
  | .nil, _ => []
  | .cons k v rest, path =>
      let currentPath := joinPath path k
      keyWarnings k currentPath
        ++ checkNamingValue v currentPath
        ++ checkNamingConventions rest path

/-- The `if (isRecord(value))` recursion step of `checkNamingConventions`. -/
def checkNamingValue : JValue → String → List ValidationWarning
  | .obj fs, path => checkNamingConventions fs path
  | _, _ => []
end

/-! ## Dates

`validateBookingData` and `checkBookingFunnel` build `Date` objects from
the check-in/check-out fields and compare them / take their difference in
milliseconds.  The model implements `new Date(x)` for the ISO
`YYYY-MM-DD` date-only strings the engine's own schemas and rules use
(parsed, as in JS, to midnight UTC); any other string is treated as an
Invalid Date (`none`).  Numbers, `null` and booleans follow the JS
coercions; an Invalid Date makes every `<`/`<=` comparison false and
every arithmetic result `NaN`. -/

def isLeapYear (y : Nat) : Bool :=
  (y % 4 == 0 && y % 100 != 0) || y % 400 == 0

def daysInMonth (y m : Nat) : Nat :=
  match m with
  | 1 => 31 | 2 => if isLeapYear y then 29 else 28 | 3 => 31
  | 4 => 30 | 5 => 31 | 6 => 30 | 7 => 31 | 8 => 31
  | 9 => 30 | 10 => 31 | 11 => 30 | 12 => 31
  | _ => 0

/-- Days from the Unix epoch of a civil date (Howard Hinnant's
`days_from_civil`; all intermediate divisions act on non-negative
operands for the four-digit years accepted by the parser). -/
def daysFromCivil (y m d : Int) : Int :=
  let y' := if m ≤ 2 then y - 1 else y
  let era := (if 0 ≤ y' then y' else y' - 399) / 400
  let yoe := y' - era * 400
  let doy := (153 * (m + (if 2 < m then -3 else 9)) + 2) / 5 + d - 1
  let doe := yoe * 365 + yoe / 4 - yoe / 100 + doy
  era * 146097 + doe - 719468

def digitVal (c : Char) : Nat := c.toNat - '0'.toNat

/-- `new Date(s)` for an ISO `YYYY-MM-DD` string: epoch days of the date,
or `none` (Invalid Date) if the string is not a valid calendar date in
that format. -/
def parseIsoDate (s : String) : Option Int :=
  match s.data with
  | [y1, y2, y3, y4, '-', m1, m2, '-', d1, d2] =>
      if [y1, y2, y3, y4, m1, m2, d1, d2].all Char.isDigit then
        let y := ((digitVal y1 * 10 + digitVal y2) * 10 + digitVal y3) * 10 + digitVal y4
        let m := digitVal m1 * 10 + digitVal m2
        let d := digitVal d1 * 10 + digitVal d2
        if 1 ≤ m && m ≤ 12 && 1 ≤ d && d ≤ daysInMonth y m then
          some (daysFromCivil y m d)
        else none
      else none
  | _ => none

def msPerDay : Int := 86400000

/-- `new Date(v).getTime()`: `some t` for a valid date, `none` for an
Invalid Date (`NaN` time value). -/
def jsNewDate (v : JValue) : Option Int :=
  match v with
  | .str s => (parseIsoDate s).map (fun d => d * msPerDay)
  | .num n => some n
  | .null => some 0
  | .bool b => some (if b then 1 else 0)
  | _ => none

/-- JS `d1 <= d2` on `Date`s: numeric comparison, false if either is Invalid. -/
def jsDateLe (a b : Option Int) : Bool :=
  match a, b with
  | some x, some y => x ≤ y
  | _, _ => false

/-- JS `d1 < d2` on `Date`s. -/
def jsDateLt (a b : Option Int) : Bool :=
  match a, b with
  | some x, some y => x < y
  | _, _ => false

/-- `Math.ceil(x / d)` for integer `x` and positive integer `d`. -/
def ceilDivInt (x d : Int) : Int := -(Int.fdiv (-x) d)

/-! ## PII pattern tests (`checkForPII` in `src/validators/tealium-rules.ts`)

The three `RegExp.test` calls are implemented as explicit searches for a
match decomposition, which is exactly what the backtracking engine's
`test` decides:

* email: `\b[A-Za-z0-9._%+-]+@[A-Za-z0-9.-]+\.[A-Z|a-z]{2,}\b`
* phone: `\b\d{3}[-.]?\d{3}[-.]?\d{4}\b`
* card:  `\b\d{4}[-\s]?\d{4}[-\s]?\d{4}[-\s]?\d{4}\b`

`\w` (for `\b`) and `\s` are taken in their ASCII readings, which cover
every character class the patterns themselves can match. -/

def isWordCharJS (c : Char) : Bool := c.isAlpha || c.isDigit || c = '_'

def isSpaceCharJS (c : Char) : Bool :=
  c = ' ' || c = '\t' || c = '\n' || c = '\r' || c = '\x0b' || c = '\x0c'

def classAt (cs : List Char) (i : Nat) (cl : Char → Bool) : Bool :=
  match cs.get? i with
  | some c => cl c
  | none => false

def wordAt (cs : List Char) (i : Nat) : Bool := classAt cs i isWordCharJS

/-- `\b`: a word character on exactly one side of position `i`. -/
def boundaryAt (cs : List Char) (i : Nat) : Bool :=
  (if i = 0 then false else wordAt cs (i - 1)) != wordAt cs i

def allRange (lo hi : Nat) (f : Nat → Bool) : Bool :=
  (List.range (hi - lo)).all fun t => f (lo + t)

def anyRange (lo hi : Nat) (f : Nat → Bool) : Bool :=
  (List.range (hi - lo)).any fun t => f (lo + t)

def emailLocalClass (c : Char) : Bool :=
  c.isAlpha || c.isDigit || c = '.' || c = '_' || c = '%' || c = '+' || c = '-'

def emailDomainClass (c : Char) : Bool :=
  c.isAlpha || c.isDigit || c = '.' || c = '-'

def emailTldClass (c : Char) : Bool := c.isAlpha || c = '|'

def emailMatchAt (cs : List Char) (i : Nat) : Bool :=
  boundaryAt cs i &&
    anyRange (i + 1) cs.length (fun a =>
      classAt cs a (fun c => c == '@') && allRange i a (fun t => classAt cs t emailLocalClass) &&
        anyRange (a + 2) cs.length (fun p =>
          classAt cs p (fun c => c == '.') &&
            allRange (a + 1) p (fun t => classAt cs t emailDomainClass) &&
            anyRange (p + 3) (cs.length + 1) (fun e =>
              allRange (p + 1) e (fun t => classAt cs t emailTldClass) && boundaryAt cs e)))

def emailTest (s : String) : Bool :=
  anyRange 0 s.data.length (emailMatchAt s.data)

def digitsRange (cs : List Char) (i k : Nat) : Bool :=
  allRange i (i + k) fun t => classAt cs t Char.isDigit

def phoneSepAt (cs : List Char) (i : Nat) : Bool :=
  classAt cs i fun c => c == '-' || c == '.'

def phoneMatchAt (cs : List Char) (i : Nat) : Bool :=
  boundaryAt cs i && digitsRange cs i 3 &&
    ([0, 1].any fun o1 => (o1 == 0 || phoneSepAt cs (i + 3)) &&
      digitsRange cs (i + 3 + o1) 3 &&
        ([0, 1].any fun o2 => (o2 == 0 || phoneSepAt cs (i + 6 + o1)) &&
          digitsRange cs (i + 6 + o1 + o2) 4 && boundaryAt cs (i + 10 + o1 + o2)))

def phoneTest (s : String) : Bool :=
  anyRange 0 s.data.length (phoneMatchAt s.data)

def cardSepAt (cs : List Char) (i : Nat) : Bool :=
  classAt cs i fun c => c == '-' || isSpaceCharJS c

def cardMatchAt (cs : List Char) (i : Nat) : Bool :=
  boundaryAt cs i && digitsRange cs i 4 &&
    ([0, 1].any fun o1 => (o1 == 0 || cardSepAt cs (i + 4)) &&
      digitsRange cs (i + 4 + o1) 4 &&
        ([0, 1].any fun o2 => (o2 == 0 || cardSepAt cs (i + 8 + o1)) &&
          digitsRange cs (i + 8 + o1 + o2) 4 &&
            ([0, 1].any fun o3 => (o3 == 0 || cardSepAt cs (i + 12 + o1 + o2)) &&
              digitsRange cs (i + 12 + o1 + o2 + o3) 4 &&
                boundaryAt cs (i + 16 + o1 + o2 + o3))))

def cardTest (s : String) : Bool :=
  anyRange 0 s.data.length (cardMatchAt s.data)

def piiPatterns : List ((String → Bool) × String) :=
  [(emailTest, "email address"), (phoneTest, "phone number"), (cardTest, "credit card number")]

def piiSkipKeys : List String := ["userId", "visitorId", "bookingId", "transactionId"]

def piiWarning (name currentPath : String) : ValidationWarning :=
  { path := currentPath,
    message := "Possible " ++ name ++ " detected in data layer",
    suggestion := some "Ensure PII is properly hashed or removed before tracking" }

/-! ## Tealium business rules (`src/validators/tealium-rules.ts`) -/

structure TealiumValidationResult where
  errors : List ValidationError
  warnings : List ValidationWarning
  suggestions : List String
  deriving DecidableEq

mutual
/-- `checkForUndefinedValues`: flags a top-level `undefined`, then walks
records flagging `undefined` entries and recursing into nested records. -/
def checkForUndefinedValues : JValue → String → List ValidationError
  | .undef, path =>
      [{ path := if path = "" then "/" else path,
         message := "Value is undefined - this may cause tracking issues",
         value := some .undef }]
  | .obj fs, path => undefinedFieldErrors fs path
  | _, _ => []

def undefinedFieldErrors : JFields → String → List ValidationError
  | .nil, _ => []
  | .cons k v rest, path =>
      undefinedValueErrors v (joinPath path k) ++ undefinedFieldErrors rest path

/-- The per-entry work of the undefined-value loop: flag an `undefined`
entry, recurse into a record. -/
def undefinedValueErrors : JValue → String → List ValidationError
  | .undef, currentPath =>
      [{ path := currentPath,
         message := "Value is undefined - remove or set to null",
         value := some .undef }]
  | .obj gs, currentPath => undefinedFieldErrors gs currentPath
  | _, _ => []
end

def stringifiedNullMsg (v : String) : String :=
  "String value \"" ++ v ++ "\" looks like a stringified null/undefined"

mutual
/-- `checkForStringifiedNulls`: flags string entries whose lowercasing is
`"undefined"`, `"null"` or `"nan"`, recursing into nested records. -/
def checkForStringifiedNulls : JValue → String → List ValidationError
  | .obj fs, path => stringifiedNullFieldErrors fs path
  | _, _ => []

def stringifiedNullFieldErrors : JFields → String → List ValidationError
  | .nil, _ => []
  | .cons k v rest, path =>
      stringifiedNullValueErrors v (joinPath path k) ++ stringifiedNullFieldErrors rest path

/-- The per-entry work of the stringified-null loop: flag a string whose
lowercasing is `"undefined"`, `"null"` or `"nan"`, recurse into a record. -/
def stringifiedNullValueErrors : JValue → String → List ValidationError
  | .str s, currentPath =>
      if strLower s = "undefined" || strLower s = "null" || strLower s = "nan" then
        [{ path := currentPath, message := stringifiedNullMsg s,
           value := some (.str s),
           expected := some "Use actual null or remove the property" }]
      else []
  | .obj gs, currentPath => stringifiedNullFieldErrors gs currentPath
  | _, _ => []
end

mutual
/-- `checkForPII`: skips the known safe keys entirely (including any
subtree stored under them), tests string entries against the three PII
patterns in order, and recurses into nested records. -/
def checkForPII : JValue → String → List ValidationWarning
  | .obj fs, path => piiFieldWarnings fs path
  | _, _ => []

def piiFieldWarnings : JFields → String → List ValidationWarning
  | .nil, _ => []
  | .cons k v rest, path =>
      (if piiSkipKeys.contains k then [] else piiValueWarnings v (joinPath path k))
      ++ piiFieldWarnings rest path

/-- The per-entry work of the PII loop for a non-skipped key: test a
string against the three patterns in order, recurse into a record. -/
def piiValueWarnings : JValue → String → List ValidationWarning
  | .str s, currentPath =>
      piiPatterns.filterMap fun pr =>
        if pr.1 s then some (piiWarning pr.2 currentPath) else none
  | .obj gs, currentPath => piiFieldWarnings gs currentPath
  | _, _ => []
end

/-- `parseFloat` restricted to the integer model of JS numbers: leading
whitespace, an optional sign and a leading digit run; `none` when JS
would produce `NaN`.  (A fractional tail only affects the digits after
the decimal point of the suggestion text below.) -/
def jsParseFloatInt (s : String) : Option Int :=
  let cs := s.data.dropWhile isSpaceCharJS
  let signAndRest : Int × List Char :=
    match cs with
    | '-' :: r => (-1, r)
    | '+' :: r => (1, r)
    | _ => (1, cs)
  let ds := signAndRest.2.takeWhile Char.isDigit
  if ds.isEmpty then none
  else some (signAndRest.1 * ds.foldl (fun acc c => acc * 10 + (digitVal c : Int)) 0)

def priceStringWarning (fieldPath s : String) : ValidationWarning :=
  { path := fieldPath, message := "Price value is a string, should be a number",
    suggestion := some ("Convert \"" ++ s ++ "\" to number: "
      ++ toString ((jsParseFloatInt s).getD 0)) }

/-- `checkPriceValues`: the five price-like fields, each flagged when
present as a string. -/
def checkPriceValues (dataLayer : JValue) : List ValidationWarning :=
  let priceFields : List (String × JValue) :=
    [("product.productPrice", jget (jget dataLayer "product") "productPrice"),
     ("transaction.transactionTotal", jget (jget dataLayer "transaction") "transactionTotal"),
     ("booking.bookingTotal", jget (jget dataLayer "booking") "bookingTotal"),
     ("booking.bookingTaxes", jget (jget dataLayer "booking") "bookingTaxes"),
     ("booking.bookingFees", jget (jget dataLayer "booking") "bookingFees")]
  priceFields.filterMap fun pr =>
    match pr.2 with
    | .str s => some (priceStringWarning pr.1 s)
    | _ => none

def checkOutBeforeCheckInError (checkOutValue : JValue) : ValidationError :=
  { path := "booking.bookingCheckOut",
    message := "Check-out date must be after check-in date",
    value := some checkOutValue }

def nightsMismatchWarning (nightsValue : JValue) (expectedStr : String) : ValidationWarning :=
  { path := "booking.bookingNights",
    message := "bookingNights (" ++ jsToStr nightsValue ++ ") doesn't match date range ("
      ++ expectedStr ++ " nights)",
    suggestion := some ("Set bookingNights to " ++ expectedStr) }

def bookingCurrencyEmptyError : ValidationError :=
  { path := "booking.bookingCurrency",
    message := "bookingCurrency must not be empty",
    expected := some "3-letter currency code (e.g., EUR, USD)" }

/-- The `checkOut <= checkIn` ordering error of `validateBookingData`. -/
def bookingDateErrors (booking : JValue) : List ValidationError :=
  if jsDateLe (jsNewDate (jget booking "bookingCheckOut"))
      (jsNewDate (jget booking "bookingCheckIn")) then
    [checkOutBeforeCheckInError (jget booking "bookingCheckOut")]
  else []

/-- The nights-mismatch warning of `validateBookingData`:
`Math.ceil((checkOut - checkIn) / 86400000)` compared with
`bookingNights` by strict `!==` (`NaN` dates make it true). -/
def bookingNightsWarnings (booking : JValue) : List ValidationWarning :=
  let checkIn := jsNewDate (jget booking "bookingCheckIn")
  let checkOut := jsNewDate (jget booking "bookingCheckOut")
  let expectedNights : Option Int :=
    match checkOut, checkIn with
    | some o, some i => some (ceilDivInt (o - i) msPerDay)
    | _, _ => none
  let expectedStr := match expectedNights with
    | some e => toString e
    | none => "NaN"
  let mismatch : Bool :=
    match jget booking "bookingNights", expectedNights with
    | .num n, some e => n != e
    | _, _ => true
  if mismatch then [nightsMismatchWarning (jget booking "bookingNights") expectedStr] else []

/-- The empty-currency error of `validateBookingData`. -/
def bookingCurrencyErrors (booking : JValue) : List ValidationError :=
  if jget booking "bookingCurrency" = .str "" then [bookingCurrencyEmptyError] else []

/-- `validateBookingData`: date ordering error, nights-mismatch warning,
empty-currency error, with (errors, warnings) in push order. -/
def validateBookingData (booking : JValue) : List ValidationError × List ValidationWarning :=
  (bookingDateErrors booking ++ bookingCurrencyErrors booking, bookingNightsWarnings booking)

/-- `validateHotelData`: star rating outside `[1,5]` (numeric ratings; a
non-numeric rating never satisfies the JS comparisons except for the
unmodelled numeric-string corner, which no registered document shape
produces). -/
def starRatingWarning (r : Int) : ValidationWarning :=
  { path := "hotel.hotelStarRating",
    message := "Star rating " ++ toString r ++ " is outside normal range (1-5)",
    suggestion := some "Use a value between 1 and 5" }

def hotelStarRatingWarnings : JValue → List ValidationWarning
  | .num r => if r < 1 || 5 < r then [starRatingWarning r] else []
  | _ => []

def validateHotelData (hotel : JValue) : List ValidationWarning :=
  hotelStarRatingWarnings (jget hotel "hotelStarRating")

/-- `^\d{4}-\d{2}-\d{2}$` -/
def isIsoDateFormat (s : String) : Bool :=
  match s.data with
  | [y1, y2, y3, y4, '-', m1, m2, '-', d1, d2] =>
      [y1, y2, y3, y4, m1, m2, d1, d2].all Char.isDigit
  | _ => false

def dateFormatWarning (fieldPath s : String) : ValidationWarning :=
  { path := fieldPath, message := "Date \"" ++ s ++ "\" is not in ISO format",
    suggestion := some "Use YYYY-MM-DD format (e.g., \"2024-03-15\")" }

/-- `checkDateFormats`: the four date fields, each flagged when present
as a non-ISO-format string. -/
def checkDateFormats (dataLayer : JValue) : List ValidationWarning :=
  let dateFields : List (String × JValue) :=
    [("search.searchCheckIn", jget (jget dataLayer "search") "searchCheckIn"),
     ("search.searchCheckOut", jget (jget dataLayer "search") "searchCheckOut"),
     ("booking.bookingCheckIn", jget (jget dataLayer "booking") "bookingCheckIn"),
     ("booking.bookingCheckOut", jget (jget dataLayer "booking") "bookingCheckOut")]
  dateFields.filterMap fun pr =>
    match pr.2 with
    | .str s => if !isIsoDateFormat s then some (dateFormatWarning pr.1 s) else none
    | _ => none

/-- `^[A-Z]{3}$` -/
def currencyPattern (s : String) : Bool :=
  match s.data with
  | [a, b, c] => a.isUpper && b.isUpper && c.isUpper
  | _ => false

/-- `^[a-z]{2}(-[A-Z]{2})?$` -/
def languagePattern (s : String) : Bool :=
  match s.data with
  | [a, b] => a.isLower && b.isLower
  | [a, b, '-', c, d] => a.isLower && b.isLower && c.isUpper && d.isUpper
  | _ => false

def pageNameError : ValidationError :=
  { path := "page.pageName",
    message := "page.pageName is required and must not be empty",
    expected := some "non-empty string" }

/-- Check 1: `page.pageName` missing (`page?.pageName === undefined`) or
the empty string. -/
def pageNameErrors (dataLayer : JValue) : List ValidationError :=
  if jget (jget dataLayer "page") "pageName" = .undef
      || jget (jget dataLayer "page") "pageName" = .str "" then
    [pageNameError]
  else []

def currencyFormatWarning (v : JValue) : ValidationWarning :=
  { path := "page.currency",
    message := "Currency \"" ++ jsToStr v ++ "\" should be ISO 4217 format",
    suggestion := some "Use 3-letter uppercase code like \"USD\", \"EUR\", \"GBP\"" }

/-- Check 4: `page.currency`, when present (`!== undefined`), must match
`^[A-Z]{3}$` (the `RegExp.test` argument is coerced to a string). -/
def currencyWarnings (dataLayer : JValue) : List ValidationWarning :=
  let v := jget (jget dataLayer "page") "currency"
  if v = .undef then []
  else if currencyPattern (jsToStr v) then []
  else [currencyFormatWarning v]

def languageFormatWarning (v : JValue) : ValidationWarning :=
  { path := "page.language",
    message := "Language \"" ++ jsToStr v ++ "\" should be ISO format",
    suggestion := some "Use format like \"en\", \"es\", or \"en-US\", \"es-ES\"" }

/-- Check 5: `page.language`, when present, must match
`^[a-z]{2}(-[A-Z]{2})?$`. -/
def languageWarnings (dataLayer : JValue) : List ValidationWarning :=
  let v := jget (jget dataLayer "page") "language"
  if v = .undef then []
  else if languagePattern (jsToStr v) then []
  else [languageFormatWarning v]

/-- Check 8a: `validateBookingData` when `booking` is present. -/
def bookingChecks (dataLayer : JValue) : List ValidationError × List ValidationWarning :=
  if jget dataLayer "booking" = .undef then ([], [])
  else validateBookingData (jget dataLayer "booking")

/-- Check 8b: `validateHotelData` when `hotel` is present. -/
def hotelRatingWarnings (dataLayer : JValue) : List ValidationWarning :=
  if jget dataLayer "hotel" = .undef then []
  else validateHotelData (jget dataLayer "hotel")

/-- The two advisory suggestions appended after all checks. -/
def ruleSuggestions (dataLayer : JValue) : List String :=
  (if jget (jget dataLayer "user") "visitorId" = .undef
      && jget (jget dataLayer "user") "userId" = .undef then
    ["Consider adding user.visitorId for anonymous tracking"]
  else [])
  ++ (if jget dataLayer "event" ≠ .undef
        && jget (jget dataLayer "event") "eventCategory" = .undef then
      ["Adding eventCategory helps with event organization in reports"]
    else [])

/-- `validateTealiumRules` from `src/validators/tealium-rules.ts`: the
nine ordered checks plus the two advisory suggestions, with errors,
warnings and suggestions accumulated in push order. -/
def validateTealiumRules (dataLayer : JValue) : TealiumValidationResult :=
  { errors := pageNameErrors dataLayer
      ++ checkForUndefinedValues dataLayer ""
      ++ checkForStringifiedNulls dataLayer ""
      ++ (bookingChecks dataLayer).1,
    warnings := currencyWarnings dataLayer
      ++ languageWarnings dataLayer
      ++ checkForPII dataLayer ""
      ++ checkPriceValues dataLayer
      ++ (bookingChecks dataLayer).2
      ++ hotelRatingWarnings dataLayer
      ++ checkDateFormats dataLayer,
    suggestions := ruleSuggestions dataLayer }

/-! ## Schema validator (`src/validators/schema.ts`)

The three registered schema ids are the `$id`s added to the Ajv instance
in `src/resources/schemas.ts`.  The Ajv engine itself is third-party
code, modelled as an explicit parameter `ajvErrors` giving the formatted
error list for a known schema (with `allErrors: true`, Ajv reports
`valid` exactly when that list is empty).  Every theorem below either
quantifies over this parameter or instantiates it with `ajvNoErrors`;
the repository code under verification is the lookup, the
unknown-schema result and the merging logic. -/

def knownSchemaUris : List String :=
  ["tealium://schema/standard", "tealium://schema/ecommerce", "tealium://schema/hotels"]

def schemaNotFoundError (schemaUri : String) : ValidationError :=
  { path := "", message := "Schema not found: " ++ schemaUri, value := some (.str schemaUri) }

def schemaNotFoundResult (schemaUri : String) : ValidationResult :=
  { isValid := false,
    errors := [schemaNotFoundError schemaUri],
    warnings := [],
    suggestions := ["Available schemas: standard, ecommerce, hotels"],
    summary := "Validation failed: Schema \"" ++ schemaUri ++ "\" not found" }

def validateAgainstSchema (ajvErrors : JValue → String → List ValidationError)
    (dataLayer : JValue) (schemaUri : String) : ValidationResult :=
  if knownSchemaUris.contains schemaUri then
    let errors := ajvErrors dataLayer schemaUri
    { isValid := errors.isEmpty,
      errors := errors,
      warnings := [],
      suggestions := [],
      summary :=
        if errors.isEmpty then "Data layer is valid"
        else "Found " ++ toString errors.length ++ " error(s) in data layer" }
  else schemaNotFoundResult schemaUri

/-- A schema engine reporting no violations (used to instantiate the
engine parameter in concrete computations). -/
def ajvNoErrors : JValue → String → List ValidationError := fun _ _ => []

/-! ## Validate tool (`src/tools/validate.ts`) -/

/-- Strict-mode promotion of one warning
(`warning.suggestion !== undefined ? {path, message, expected: suggestion} : {path, message}`). -/
def promoteWarning (w : ValidationWarning) : ValidationError :=
  match w.suggestion with
  | some s => { path := w.path, message := w.message, expected := some s }
  | none => { path := w.path, message := w.message }

/-- The early return of `validateDataLayer` for a non-record document. -/
def notAnObjectResult (dataLayer : JValue) : ValidationResult :=
  { isValid := false,
    errors := [{ path := "/", message := "Data layer must be an object",
                 value := some dataLayer, expected := some "object" }],
    warnings := [],
    suggestions := ["Provide a valid data layer object"],
    summary := "Invalid data layer: not an object" }

/-- `validateDataLayer` from `src/tools/validate.ts` (defaults:
`schemaUri = "tealium://schema/standard"`, `strictMode = false`). -/
def validateDataLayer (ajvErrors : JValue → String → List ValidationError)
    (dataLayer : JValue) (schemaUri : String) (strictMode : Bool) : ValidationResult :=
  if isRecord dataLayer then
    let schemaResult := validateAgainstSchema ajvErrors dataLayer schemaUri
    let tealiumResult :=
      if isTealiumDataLayer dataLayer then validateTealiumRules dataLayer
      else ⟨[], [], []⟩
    let namingWarnings := checkNamingValue dataLayer ""
    let allErrors := schemaResult.errors ++ tealiumResult.errors
    let allWarnings := schemaResult.warnings ++ tealiumResult.warnings ++ namingWarnings
    let allSuggestions := schemaResult.suggestions ++ tealiumResult.suggestions
    let finalErrors :=
      if strictMode then allErrors ++ allWarnings.map promoteWarning else allErrors
    let isValid := finalErrors.isEmpty
    let summary :=
      if isValid && allWarnings.isEmpty then "Data layer is valid with no warnings"
      else if isValid then
        "Data layer is valid with " ++ toString allWarnings.length ++ " warning(s)"
      else
        "Found " ++ toString finalErrors.length ++ " error(s) and "
          ++ toString allWarnings.length ++ " warning(s)"
    { isValid := isValid,
      errors := finalErrors,
      warnings := if strictMode then [] else allWarnings,
      suggestions := allSuggestions,
      summary := summary }
  else notAnObjectResult dataLayer

/-! ## Debug engine (`src/tools/debug/index.ts` and `src/tools/debug/checks.ts`)

`checkBookingFunnel` compares the check-in date against `new Date()`;
the current clock reading is therefore an explicit parameter `now`
(milliseconds since the epoch) of the embedded functions. -/

inductive Severity where
  | error
  | warning
  | info
  deriving DecidableEq

structure DebugIssue where
  severity : Severity
  path : String
  issue : String
  recommendation : String
  deriving DecidableEq

structure TypeMismatch where
  path : String
  expected : String
  actual : String
  deriving DecidableEq

structure DebugResult where
  dataLayerSnapshot : JValue
  issues : List DebugIssue
  missingVariables : List String
  typeMismatches : List TypeMismatch
  recommendations : List String
  deriving DecidableEq

mutual
/-- `checkEmptyValues`: walks records flagging empty strings (warning),
nulls (info) and empty arrays (info), recursing into nested records. -/
def checkEmptyValues : JValue → String → List DebugIssue
  | .obj fs, path => emptyValueIssues fs path
  | _, _ => []

def emptyValueIssues : JFields → String → List DebugIssue
  | .nil, _ => []
  | .cons k v rest, path =>
      let currentPath := joinPath path k
      (match v with
       | .str s =>
           if s = "" then
             [{ severity := .warning, path := currentPath, issue := "Empty string value",
                recommendation := "Remove the property or set a meaningful value" }]
           else []
       | .null =>
           [{ severity := .info, path := currentPath, issue := "Null value",
              recommendation := "Consider if this property should be present at all" }]
       | .arr .nil =>
           [{ severity := .info, path := currentPath, issue := "Empty array",
              recommendation := "Remove empty arrays unless intentionally indicating \"no items\"" }]
       | .obj gs => emptyValueIssues gs currentPath
       | _ => [])
      ++ emptyValueIssues rest path
end

def expectedTypesTable : List (String × String) :=
  [("page.pageName", "string"),
   ("page.language", "string"),
   ("user.isLoggedIn", "boolean"),
   ("user.userId", "string"),
   ("product.productPrice", "number"),
   ("product.productQuantity", "number"),
   ("transaction.transactionTotal", "number"),
   ("transaction.transactionTax", "number"),
   ("booking.bookingTotal", "number"),
   ("booking.bookingNights", "number"),
   ("booking.bookingAdults", "number"),
   ("booking.bookingRooms", "number"),
   ("hotel.hotelStarRating", "number"),
   ("search.searchAdults", "number"),
   ("search.searchRooms", "number"),
   ("guest.guestLoyaltyPoints", "number")]

def lookupStr : List (String × String) → String → Option String
  | [], _ => none
  | (k, v) :: rest, key => if k = key then some v else lookupStr rest key

mutual
/-- `checkDataTypes`: compares `typeof` of present non-null values
against the fixed expected-type table, recursing into nested records. -/
def checkDataTypes : JValue → String → List TypeMismatch
  | .obj fs, path => dataTypeMismatches fs path
  | _, _ => []

def dataTypeMismatches : JFields → String → List TypeMismatch
  | .nil, _ => []
  | .cons k v rest, path =>
      let currentPath := joinPath path k
      (match lookupStr expectedTypesTable currentPath with
       | some expectedType =>
           if jsTypeof v ≠ expectedType && v ≠ .null && v ≠ .undef then
             [{ path := currentPath, expected := expectedType, actual := jsTypeof v }]
           else []
       | none => [])
      ++ (match v with
          | .obj gs => dataTypeMismatches gs currentPath
          | _ => [])
      ++ dataTypeMismatches rest path
end

/-- `checkCommonMissingVariables`. -/
def checkCommonMissingVariables (dataLayer : JValue) : List String :=
  (if jget dataLayer "page" = .undef then ["page (entire object)"]
   else
     (if jget (jget dataLayer "page") "pageName" = .str "" then ["page.pageName"] else [])
     ++ (if jget (jget dataLayer "page") "pageType" = .undef then ["page.pageType"] else []))
  ++ (if jget dataLayer "user" = .undef then ["user (entire object)"]
      else
        if jget (jget dataLayer "user") "visitorId" = .undef
            && jget (jget dataLayer "user") "userId" = .undef then
          ["user.visitorId or user.userId"]
        else [])
  ++ (if jget dataLayer "booking" ≠ .undef then
        (if jget (jget dataLayer "hotel") "hotelCode" = .undef then ["hotel.hotelCode"] else [])
        ++ (if jget (jget dataLayer "booking") "bookingCurrency" = .str "" then
              ["booking.bookingCurrency"]
            else [])
      else [])
  ++ (if jget dataLayer "search" ≠ .undef then
        if jget (jget dataLayer "search") "searchDestination" = .undef
            && jget dataLayer "hotel" = .undef then
          ["search.searchDestination or hotel context"]
        else []
      else [])

/-- `checkEventTracking` (issues, recommendations).  The guard
`isTealiumDataLayer` guarantees `eventName` is a string whenever `event`
is present. -/
def checkEventTracking (dataLayer : JValue) : List DebugIssue × List String :=
  match jget dataLayer "event" with
  | .undef => ([], [])
  | ev =>
      match jget ev "eventName" with
      | .str name =>
          let spaceIssues :=
            if name.data.contains ' ' then
              [{ severity := Severity.warning, path := "event.eventName",
                 issue := "Event name contains spaces: \"" ++ name ++ "\"",
                 recommendation :=
                   "Use snake_case or dot.notation (e.g., \"booking_completed\" or \"booking.completed\")" }]
            else []
          let upperIssues :=
            if name ≠ strLower name then
              [{ severity := Severity.info, path := "event.eventName",
                 issue := "Event name contains uppercase characters",
                 recommendation := "Consider using lowercase for consistency" }]
            else []
          let recs :=
            if jget ev "eventCategory" = .undef then
              ["Add eventCategory for better event organization in reports"]
            else []
          (spaceIssues ++ upperIssues, recs)
      | _ => ([], [])

/-- JS `checkIn < now` where `now` is the (always valid) current date. -/
def jsDateLtNow (a : Option Int) (now : Int) : Bool :=
  match a with
  | some x => x < now
  | none => false

/-- The body of `checkBookingFunnel` once `booking` is present:
hotel-missing error, past-check-in warning (the only place the engine
reads the clock), reversed-dates error, zero-total warning. -/
def checkBookingFunnelBody (dataLayer booking : JValue) (now : Int) : List DebugIssue :=
      let hotelIssues :=
        if jget dataLayer "hotel" = .undef && jget booking "bookingId" ≠ .undef then
          [{ severity := Severity.error, path := "hotel",
             issue := "Booking exists but hotel data is missing",
             recommendation := "Include hotel.hotelCode and hotel.hotelName with booking data" }]
        else []
      let checkIn := jsNewDate (jget booking "bookingCheckIn")
      let checkOut := jsNewDate (jget booking "bookingCheckOut")
      let pastIssues :=
        if jsDateLtNow checkIn now && jget booking "bookingStatus" ≠ .str "completed" then
          [{ severity := Severity.warning, path := "booking.bookingCheckIn",
             issue := "Check-in date is in the past",
             recommendation := "Verify date is correct or update booking status" }]
        else []
      let orderIssues :=
        if jsDateLt checkOut checkIn then
          [{ severity := Severity.error, path := "booking.bookingCheckOut",
             issue := "Check-out date is before check-in date",
             recommendation := "Fix date values" }]
        else []
      let totalIssues :=
        if jget booking "bookingTotal" = .num 0 then
          [{ severity := Severity.warning, path := "booking.bookingTotal",
             issue := "Booking total is zero",
             recommendation := "Verify pricing data is correctly populated" }]
        else []
      hotelIssues ++ pastIssues ++ orderIssues ++ totalIssues

/-- `checkBookingFunnel`: runs the booking-consistency checks when
`booking` is present. -/
def checkBookingFunnel (dataLayer : JValue) (now : Int) : List DebugIssue :=
  match jget dataLayer "booking" with
  | .undef => []
  | booking => checkBookingFunnelBody dataLayer booking now

def productIdIssues : JArr → Nat → List DebugIssue
  | .nil, _ => []
  | .cons p rest, i =>
      (if jget p "productId" = .str "" then
        [{ severity := Severity.error,
           path := "products[" ++ toString i ++ "].productId",
           issue := "Product has empty productId",
           recommendation := "Every product must have a unique identifier" }]
      else [])
      ++ productIdIssues rest (i + 1)

/-- `checkSpecificArea` for one checkpoint (issues, recommendations);
unknown checkpoint names fall through to the empty result. -/
def checkSpecificArea (dataLayer : JValue) (checkpoint : String) :
    List DebugIssue × List String :=
  let lc := strLower checkpoint
  if lc = "ecommerce" || lc = "products" then
    (match jget dataLayer "products" with
     | .arr xs => (productIdIssues xs 0, [])
     | _ => ([], []))
  else if lc = "loyalty" || lc = "guest" then
    (if jget dataLayer "guest" = .undef
        && jget (jget dataLayer "user") "userType" = .str "loyalty" then
      ([{ severity := Severity.warning, path := "guest",
          issue := "User is loyalty member but guest data is missing",
          recommendation := "Include guest.guestLoyaltyTier and guest.guestLoyaltyPoints" }], [])
    else ([], []))
  else if lc = "search" then
    (if jget dataLayer "search" ≠ .undef
        && jget (jget dataLayer "search") "searchCheckIn" = .undef then
      ([], ["Include check-in and check-out dates in search data for better analysis"])
    else ([], []))
  else ([], [])

/-- `generateRecommendations`, applied to the issue list accumulated by
all previous checks. -/
def generateRecommendations (dataLayer : JValue) (issues : List DebugIssue) : List String :=
  (if 5 < issues.countP (fun i => i.severity = Severity.error) then
    ["Consider reviewing your data layer implementation - multiple critical issues detected"]
  else [])
  ++ (if jget (jget dataLayer "page") "pageType" = .undef then
        ["Add page.pageType for better page classification in analytics"]
      else [])
  ++ (if jget (jget dataLayer "booking") "bookingCurrency" ≠ .undef
        && jget (jget dataLayer "page") "currency" ≠ .undef
        && jget (jget dataLayer "booking") "bookingCurrency"
            ≠ jget (jget dataLayer "page") "currency" then
        ["Ensure page.currency and booking.bookingCurrency are consistent"]
      else [])

/-- `[...new Set(xs)]`: deduplication keeping first occurrences. -/
def dedupFirst (xs : List String) : List String :=
  go [] xs
where
  go (seen : List String) : List String → List String
    | [] => []
    | x :: rest => if seen.contains x then go seen rest else x :: go (x :: seen) rest

/-- The short-circuit result returned when the document fails
`isTealiumDataLayer`. -/
def invalidDebugResult : DebugResult :=
  { dataLayerSnapshot := .obj .nil,
    issues := [{ severity := Severity.error, path := "/",
                 issue := "Invalid data layer: must be an object",
                 recommendation := "Provide a valid data layer object" }],
    missingVariables := [],
    typeMismatches := [],
    recommendations := ["Ensure the data layer is a valid object"] }

/-- The body of `debugDataLayer` once the shape guard has passed: all
checks run and their outputs are accumulated in source order. -/
def debugChecks (dataLayer : JValue) (checkPoints : List String) (now : Int) : DebugResult :=
  let emptyIssues := checkEmptyValues dataLayer ""
  let typeMismatches := checkDataTypes dataLayer ""
  let missingVariables := checkCommonMissingVariables dataLayer
  let eventResult := checkEventTracking dataLayer
  let funnelIssues := checkBookingFunnel dataLayer now
  let cpResults := checkPoints.map (checkSpecificArea dataLayer)
  let issues := emptyIssues ++ eventResult.1 ++ funnelIssues
    ++ (cpResults.map Prod.fst).flatten
  let recommendations := eventResult.2 ++ (cpResults.map Prod.snd).flatten
    ++ generateRecommendations dataLayer issues
  { dataLayerSnapshot := dataLayer,
    issues := issues,
    missingVariables := missingVariables,
    typeMismatches := typeMismatches,
    recommendations := dedupFirst recommendations }

/-- `debugDataLayer` from `src/tools/debug/index.ts` (default
`checkPoints = []`); `now` is the clock reading taken by
`checkBookingFunnel`'s `new Date()`. -/
def debugDataLayer (dataLayer : JValue) (checkPoints : List String) (now : Int) : DebugResult :=
  if isTealiumDataLayer dataLayer then debugChecks dataLayer checkPoints now
  else invalidDebugResult

/-! ## Proof infrastructure -/

theorem strAppend_assoc (a b c : String) : a ++ b ++ c = a ++ (b ++ c) := by
  apply strExt
  rw [strData_append, strData_append, strData_append, strData_append, List.append_assoc]

theorem mem_if_singleton {α} {c : Prop} [Decidable c] {x w : α}
    (h : w ∈ (if c then [x] else [])) : c ∧ w = x := by
  split at h
  · exact ⟨‹_›, by simpa using h⟩
  · simp at h

theorem if_singleton_mem {α} {c : Prop} [Decidable c] {x : α} (hc : c) :
    x ∈ (if c then [x] else []) := by
  simp [hc]

/-! ## C1, C2: structure of `validateDataLayer`'s result -/

/-- C1.  For every engine behaviour, document, schema id and mode, the
result of `validateDataLayer` satisfies `isValid = true` exactly when
its `errors` list is empty: `isValid` is computed as
`allErrors.length === 0` on the very list that is returned. -/
theorem validateDataLayer_isValid_iff_no_errors
    (ajvErrors : JValue → String → List ValidationError)
    (dataLayer : JValue) (schemaUri : String) (strictMode : Bool) :
    (validateDataLayer ajvErrors dataLayer schemaUri strictMode).isValid = true
      ↔ (validateDataLayer ajvErrors dataLayer schemaUri strictMode).errors = [] := by
  have h : (validateDataLayer ajvErrors dataLayer schemaUri strictMode).isValid
      = (validateDataLayer ajvErrors dataLayer schemaUri strictMode).errors.isEmpty := by
    cases dataLayer <;> rfl
  rw [h, List.isEmpty_iff]

/-- C2.  Strict mode is a pure post-processing step: with the same
engine, document and schema id, the strict-mode error list is exactly
the non-strict error list followed by one `promoteWarning` image per
accumulated warning (in order, after all checkers have contributed), and
the strict-mode result returns no warnings.  `promoteWarning` carries
the warning's path and message, and its suggestion (when present) as the
error's `expected` field. -/
theorem validateDataLayer_strict_promotes
    (ajvErrors : JValue → String → List ValidationError)
    (dataLayer : JValue) (schemaUri : String) :
    (validateDataLayer ajvErrors dataLayer schemaUri true).errors
        = (validateDataLayer ajvErrors dataLayer schemaUri false).errors
          ++ ((validateDataLayer ajvErrors dataLayer schemaUri false).warnings.map promoteWarning)
      ∧ (validateDataLayer ajvErrors dataLayer schemaUri true).warnings = [] := by
  cases dataLayer <;> exact ⟨rfl, rfl⟩

/-! Unfolding lemmas for `validateDataLayer` on record inputs. -/

/-- The business-rule component actually merged by `validateDataLayer`. -/
def tealiumComponent (dataLayer : JValue) : TealiumValidationResult :=
  if isTealiumDataLayer dataLayer then validateTealiumRules dataLayer else ⟨[], [], []⟩

theorem vdl_isValid_eq (ajvErrors : JValue → String → List ValidationError)
    (dataLayer : JValue) (schemaUri : String) (strictMode : Bool) :
    (validateDataLayer ajvErrors dataLayer schemaUri strictMode).isValid
      = (validateDataLayer ajvErrors dataLayer schemaUri strictMode).errors.isEmpty := by
  cases dataLayer <;> rfl

theorem vdl_errors_nonstrict (ajvErrors : JValue → String → List ValidationError)
    (fs : JFields) (schemaUri : String) :
    (validateDataLayer ajvErrors (.obj fs) schemaUri false).errors
      = (validateAgainstSchema ajvErrors (.obj fs) schemaUri).errors
        ++ (tealiumComponent (.obj fs)).errors := rfl

theorem vdl_errors_strict (ajvErrors : JValue → String → List ValidationError)
    (fs : JFields) (schemaUri : String) :
    (validateDataLayer ajvErrors (.obj fs) schemaUri true).errors
      = (validateAgainstSchema ajvErrors (.obj fs) schemaUri).errors
        ++ (tealiumComponent (.obj fs)).errors
        ++ ((validateAgainstSchema ajvErrors (.obj fs) schemaUri).warnings
            ++ (tealiumComponent (.obj fs)).warnings
            ++ checkNamingValue (.obj fs) "").map promoteWarning := rfl

theorem vdl_warnings_nonstrict (ajvErrors : JValue → String → List ValidationError)
    (fs : JFields) (schemaUri : String) :
    (validateDataLayer ajvErrors (.obj fs) schemaUri false).warnings
      = (validateAgainstSchema ajvErrors (.obj fs) schemaUri).warnings
        ++ (tealiumComponent (.obj fs)).warnings
        ++ checkNamingValue (.obj fs) "" := rfl

theorem vdl_suggestions (ajvErrors : JValue → String → List ValidationError)
    (fs : JFields) (schemaUri : String) (strictMode : Bool) :
    (validateDataLayer ajvErrors (.obj fs) schemaUri strictMode).suggestions
      = (validateAgainstSchema ajvErrors (.obj fs) schemaUri).suggestions
        ++ (tealiumComponent (.obj fs)).suggestions := rfl

theorem validateAgainstSchema_unknown (ajvErrors : JValue → String → List ValidationError)
    (dataLayer : JValue) (schemaUri : String)
    (hunknown : knownSchemaUris.contains schemaUri = false) :
    validateAgainstSchema ajvErrors dataLayer schemaUri = schemaNotFoundResult schemaUri := by
  unfold validateAgainstSchema
  rw [if_neg]
  intro hc
  rw [hunknown] at hc
  exact Bool.noConfusion hc

/-! ## C3: unknown schema id -/

/-- Substring containment (what "message contains X" means). -/
def strContains (pat s : String) : Bool :=
  (List.range (s.data.length + 1)).any fun i => pat.data.isPrefixOf (s.data.drop i)

theorem strContains_prefix {pat pre : String} (s : String)
    (h : pat.data.isPrefixOf pre.data = true) : strContains pat (pre ++ s) = true := by
  unfold strContains
  rw [List.any_eq_true]
  refine ⟨0, List.mem_range.mpr (Nat.succ_pos _), ?_⟩
  rw [List.drop_zero, strData_append]
  rcases List.isPrefixOf_iff_prefix.mp h with ⟨t, ht⟩
  apply List.isPrefixOf_iff_prefix.mpr
  exact ⟨t ++ s.data, by rw [← List.append_assoc, ht]⟩

/-- C3 (amended).  For every engine behaviour, object document, mode and
schema id outside the three registered ids, `validateDataLayer` returns
(as a value — the lookup miss never throws) a result with
`isValid = false` whose first error is the single error contributed by
the schema component: its message contains "Schema not found" and names
the missing id, and the first suggestion lists the three valid ids.
(The business-rule validator may append further errors after it; see the
counterexample.) -/
theorem validateDataLayer_unknown_schema
    (ajvErrors : JValue → String → List ValidationError)
    (dataLayer : JValue) (schemaUri : String) (strictMode : Bool)
    (hrec : isRecord dataLayer = true)
    (hunknown : knownSchemaUris.contains schemaUri = false) :
    (validateDataLayer ajvErrors dataLayer schemaUri strictMode).isValid = false
      ∧ (validateDataLayer ajvErrors dataLayer schemaUri strictMode).errors.head?
          = some (schemaNotFoundError schemaUri)
      ∧ (schemaNotFoundError schemaUri).message = "Schema not found: " ++ schemaUri
      ∧ strContains "Schema not found" (schemaNotFoundError schemaUri).message = true
      ∧ (validateDataLayer ajvErrors dataLayer schemaUri strictMode).suggestions.head?
          = some "Available schemas: standard, ecommerce, hotels" := by
  cases dataLayer with
  | obj fs =>
    have hschema := validateAgainstSchema_unknown ajvErrors (.obj fs) schemaUri hunknown
    have herr : (validateDataLayer ajvErrors (.obj fs) schemaUri strictMode).errors.head?
        = some (schemaNotFoundError schemaUri) := by
      cases strictMode
      · rw [vdl_errors_nonstrict, hschema]; rfl
      · rw [vdl_errors_strict, hschema]; rfl
    refine ⟨?_, herr, rfl, strContains_prefix schemaUri rfl, ?_⟩
    · rw [vdl_isValid_eq]
      cases strictMode
      · rw [vdl_errors_nonstrict, hschema]; rfl
      · rw [vdl_errors_strict, hschema]; rfl
    · rw [vdl_suggestions, hschema]; rfl
  | null => exact Bool.noConfusion hrec
  | undef => exact Bool.noConfusion hrec
  | bool b => exact Bool.noConfusion hrec
  | num n => exact Bool.noConfusion hrec
  | str s => exact Bool.noConfusion hrec
  | arr xs => exact Bool.noConfusion hrec

/-- C3 witness: the amended statement applied at the empty document and
the unknown id `tealium://schema/unknown`. -/
theorem validateDataLayer_unknown_schema_witness :
    (validateDataLayer ajvNoErrors (jobj []) "tealium://schema/unknown" false).isValid = false
      ∧ (validateDataLayer ajvNoErrors (jobj []) "tealium://schema/unknown" false).errors.head?
          = some (schemaNotFoundError "tealium://schema/unknown")
      ∧ (schemaNotFoundError "tealium://schema/unknown").message
          = "Schema not found: " ++ "tealium://schema/unknown"
      ∧ strContains "Schema not found" (schemaNotFoundError "tealium://schema/unknown").message
          = true
      ∧ (validateDataLayer ajvNoErrors (jobj []) "tealium://schema/unknown" false).suggestions.head?
          = some "Available schemas: standard, ecommerce, hotels" :=
  validateDataLayer_unknown_schema ajvNoErrors (jobj []) "tealium://schema/unknown" false
    (by decide) (by decide)

/-- C3 counterexample to the frozen claim: on the empty-object document
(for which the business-rule validator reports the missing
`page.pageName`), an unknown schema id yields TWO errors, not exactly
one — the "Schema not found" error followed by the `page.pageName`
error. -/
theorem validateDataLayer_unknown_schema_not_single_error :
    (validateDataLayer ajvNoErrors (jobj []) "tealium://schema/unknown" false).errors.length = 2
      ∧ (validateDataLayer ajvNoErrors (jobj []) "tealium://schema/unknown" false).errors
          = [schemaNotFoundError "tealium://schema/unknown", pageNameError] := by
  constructor <;> decide

/-! ## C4: missing / empty `page.pageName` -/

/-- C4 (amended).  For every object document that satisfies the
`isTealiumDataLayer` shape predicate (the guard under which
`validateDataLayer` runs the business rules), if `page.pageName` is
missing or the empty string then the result contains the
`page.pageName` error with `expected` "non-empty string", in every mode
and for every engine behaviour. -/
theorem validateDataLayer_missing_pageName
    (ajvErrors : JValue → String → List ValidationError)
    (dataLayer : JValue) (schemaUri : String) (strictMode : Bool)
    (hshape : isTealiumDataLayer dataLayer = true)
    (hmiss : jget (jget dataLayer "page") "pageName" = .undef
      ∨ jget (jget dataLayer "page") "pageName" = .str "") :
    pageNameError ∈ (validateDataLayer ajvErrors dataLayer schemaUri strictMode).errors := by
  cases dataLayer with
  | obj fs =>
    have hmem : pageNameError ∈ (tealiumComponent (.obj fs)).errors := by
      unfold tealiumComponent
      rw [if_pos hshape]
      unfold validateTealiumRules pageNameErrors
      apply List.mem_append_left
      apply List.mem_append_left
      apply List.mem_append_left
      rcases hmiss with h | h <;> simp [h]
    cases strictMode
    · rw [vdl_errors_nonstrict]
      exact List.mem_append_right _ hmem
    · rw [vdl_errors_strict]
      exact List.mem_append_left _ (List.mem_append_right _ hmem)
  | null => exact Bool.noConfusion hshape
  | undef => exact Bool.noConfusion hshape
  | bool b => exact Bool.noConfusion hshape
  | num n => exact Bool.noConfusion hshape
  | str s => exact Bool.noConfusion hshape
  | arr xs => exact Bool.noConfusion hshape

/-- C4 witness: the amended statement applied to the empty document
(where `page` — hence `page.pageName` — is absent). -/
theorem validateDataLayer_missing_pageName_witness :
    pageNameError ∈ (validateDataLayer ajvNoErrors (jobj [])
      "tealium://schema/standard" false).errors :=
  validateDataLayer_missing_pageName ajvNoErrors (jobj []) "tealium://schema/standard" false
    (by decide) (Or.inl (by decide))

/-- C4 counterexample to the frozen claim: for the object document
`{ page: {} }`, `page.pageName` is missing, but the document fails the
`isTealiumDataLayer` guard (`page` is not valid `PageData`), so the
business rules are skipped and NO error at path `page.pageName` is
produced (with the schema engine contributing no errors, the error list
is empty; the real Ajv engine reports slash-separated instance paths
such as `/page` and stringified schema fragments, never the dotted path
`page.pageName` with expected "non-empty string"). -/
theorem validateDataLayer_missing_pageName_counterexample :
    jget (jget (jobj [("page", jobj [])]) "page") "pageName" = .undef
      ∧ isRecord (jobj [("page", jobj [])]) = true
      ∧ (validateDataLayer ajvNoErrors (jobj [("page", jobj [])])
          "tealium://schema/standard" false).errors = [] := by
  refine ⟨by decide, by decide, by decide⟩


/-! ## C5: determinism / clock dependence -/

/-- The one Boolean through which the debug engine reads the clock:
`new Date(booking.bookingCheckIn) < new Date()` inside
`checkBookingFunnel` (false when `booking` is absent). -/
def pastCheckInFlag (dataLayer : JValue) (now : Int) : Bool :=
  match jget dataLayer "booking" with
  | .undef => false
  | booking => jsDateLtNow (jsNewDate (jget booking "bookingCheckIn")) now

theorem checkBookingFunnelBody_clock_congr (dataLayer booking : JValue) (t1 t2 : Int)
    (hf : jsDateLtNow (jsNewDate (jget booking "bookingCheckIn")) t1
      = jsDateLtNow (jsNewDate (jget booking "bookingCheckIn")) t2) :
    checkBookingFunnelBody dataLayer booking t1 = checkBookingFunnelBody dataLayer booking t2 := by
  unfold checkBookingFunnelBody
  simp only [hf]

theorem checkBookingFunnel_clock_congr (dataLayer : JValue) (t1 t2 : Int)
    (h : pastCheckInFlag dataLayer t1 = pastCheckInFlag dataLayer t2) :
    checkBookingFunnel dataLayer t1 = checkBookingFunnel dataLayer t2 := by
  unfold checkBookingFunnel
  unfold pastCheckInFlag at h
  cases hb : jget dataLayer "booking" with
  | undef => rfl
  | null =>
      rw [hb] at h
      exact checkBookingFunnelBody_clock_congr dataLayer .null t1 t2 h
  | bool b =>
      rw [hb] at h
      exact checkBookingFunnelBody_clock_congr dataLayer (.bool b) t1 t2 h
  | num n =>
      rw [hb] at h
      exact checkBookingFunnelBody_clock_congr dataLayer (.num n) t1 t2 h
  | str s =>
      rw [hb] at h
      exact checkBookingFunnelBody_clock_congr dataLayer (.str s) t1 t2 h
  | arr xs =>
      rw [hb] at h
      exact checkBookingFunnelBody_clock_congr dataLayer (.arr xs) t1 t2 h
  | obj gs =>
      rw [hb] at h
      exact checkBookingFunnelBody_clock_congr dataLayer (.obj gs) t1 t2 h

/-- C5 (amended).  `validateDataLayer` takes no clock input, so its runs
are identical by construction; `debugDataLayer` reads the clock only
through the check-in-in-the-past comparison of `checkBookingFunnel`:
two runs whose clock readings agree on that one Boolean produce
identical `DebugResult`s for every document and checkpoint list. -/
theorem debugDataLayer_clock_congr (dataLayer : JValue) (checkPoints : List String)
    (t1 t2 : Int) (h : pastCheckInFlag dataLayer t1 = pastCheckInFlag dataLayer t2) :
    debugDataLayer dataLayer checkPoints t1 = debugDataLayer dataLayer checkPoints t2 := by
  unfold debugDataLayer
  have hfun := checkBookingFunnel_clock_congr dataLayer t1 t2 h
  unfold debugChecks
  rw [hfun]

/-- C5 witness: a booked stay checked at two clock readings agreeing on
the past-check-in comparison (both before the 2024-03-10 check-in). -/
theorem debugDataLayer_clock_congr_witness :
    debugDataLayer (jobj [("booking", jobj [("bookingCheckIn", .str "2024-03-10"),
        ("bookingCheckOut", .str "2024-03-15"), ("bookingNights", .num 5),
        ("bookingAdults", .num 2), ("bookingRooms", .num 1), ("bookingTotal", .num 500),
        ("bookingCurrency", .str "EUR")])]) [] 0
      = debugDataLayer (jobj [("booking", jobj [("bookingCheckIn", .str "2024-03-10"),
          ("bookingCheckOut", .str "2024-03-15"), ("bookingNights", .num 5),
          ("bookingAdults", .num 2), ("bookingRooms", .num 1), ("bookingTotal", .num 500),
          ("bookingCurrency", .str "EUR")])]) [] 1 :=
  debugDataLayer_clock_congr _ [] 0 1 (by decide)

/-- C5 counterexample to the frozen claim: the debug operation is NOT
independent of when it runs.  For the same booked-stay document and the
same arguments, a run with the clock before the check-in date
(epoch 0, i.e. 1970) and a run after it (1 800 000 000 000 ms,
i.e. 2027) return different results — the later run additionally
reports the "Check-in date is in the past" issue read off `new Date()`
in `checkBookingFunnel`. -/
theorem debugDataLayer_not_time_independent :
    debugDataLayer (jobj [("booking", jobj [("bookingCheckIn", .str "2024-03-10"),
        ("bookingCheckOut", .str "2024-03-15"), ("bookingNights", .num 5),
        ("bookingAdults", .num 2), ("bookingRooms", .num 1), ("bookingTotal", .num 500),
        ("bookingCurrency", .str "EUR")])]) [] 0
      ≠ debugDataLayer (jobj [("booking", jobj [("bookingCheckIn", .str "2024-03-10"),
          ("bookingCheckOut", .str "2024-03-15"), ("bookingNights", .num 5),
          ("bookingAdults", .num 2), ("bookingRooms", .num 1), ("bookingTotal", .num 500),
          ("bookingCurrency", .str "EUR")])]) [] 1800000000000 := by
  decide

/-! ## C6: debug short-circuit -/

/-- C6 (amended).  `debugDataLayer` returns the short-circuit result
(single top-level error issue, empty snapshot, empty missing-variable /
type-mismatch lists) exactly when the document fails the
`isTealiumDataLayer` shape predicate — which rejects every non-object
AND every object violating the domain shape; when the predicate holds,
the full set of checks runs (the result is `debugChecks`) and the
result is never the short-circuit value. -/
theorem debugDataLayer_shape_guard (dataLayer : JValue) (checkPoints : List String) (now : Int) :
    (isTealiumDataLayer dataLayer = false →
      debugDataLayer dataLayer checkPoints now = invalidDebugResult)
    ∧ (isTealiumDataLayer dataLayer = true →
        debugDataLayer dataLayer checkPoints now = debugChecks dataLayer checkPoints now
          ∧ debugDataLayer dataLayer checkPoints now ≠ invalidDebugResult) := by
  constructor
  · intro h
    unfold debugDataLayer
    rw [if_neg]
    intro hc
    rw [h] at hc
    exact Bool.noConfusion hc
  · intro h
    have heq : debugDataLayer dataLayer checkPoints now = debugChecks dataLayer checkPoints now := by
      unfold debugDataLayer
      rw [if_pos h]
    refine ⟨heq, ?_⟩
    rw [heq]
    by_cases hnil : dataLayer = .obj .nil
    · subst hnil
      intro hcontra
      have hmv := congrArg DebugResult.missingVariables hcontra
      have h1 : (debugChecks (.obj .nil) checkPoints now).missingVariables
          = ["page (entire object)", "user (entire object)"] := rfl
      have h2 : invalidDebugResult.missingVariables = [] := rfl
      rw [h1, h2] at hmv
      exact List.noConfusion hmv
    · intro hcontra
      have hsnap := congrArg DebugResult.dataLayerSnapshot hcontra
      have h1 : (debugChecks dataLayer checkPoints now).dataLayerSnapshot = dataLayer := rfl
      have h2 : invalidDebugResult.dataLayerSnapshot = .obj .nil := rfl
      rw [h1, h2] at hsnap
      exact hnil hsnap

/-- C6 witness: the amended statement applied to the empty document
(which satisfies the shape predicate): the full checks run and the
result is not the short-circuit value. -/
theorem debugDataLayer_shape_guard_witness :
    debugDataLayer (jobj []) [] 0 = debugChecks (jobj []) [] 0
      ∧ debugDataLayer (jobj []) [] 0 ≠ invalidDebugResult :=
  (debugDataLayer_shape_guard (jobj []) [] 0).2 (by decide)

/-- C6 counterexample to the frozen claim: `{ page: {} }` IS an object,
yet `debugDataLayer` short-circuits on it (returning the invalid-input
result with empty snapshot and no further checks run), because the
document fails `isTealiumDataLayer`, a strictly stronger condition than
being a record. -/
theorem debugDataLayer_shortcircuits_on_object :
    isRecord (jobj [("page", jobj [])]) = true
      ∧ debugDataLayer (jobj [("page", jobj [])]) [] 0 = invalidDebugResult := by
  constructor <;> decide

/-! ## C10: traversals never descend into arrays

Formalisation: replacing every array element of a document by `null`
(keeping array lengths, so the one emptiness test that does look at an
array is unaffected) leaves the output of each recursive traversal
unchanged.  Consequently a key or string value occurring only inside an
array element can never be flagged by any of these checks: erasing it
does not change any of their outputs. -/

mutual
/-- Replace the contents of every array element by `null`, recursively,
preserving array lengths and everything outside arrays. -/
def pruneArrV : JValue → JValue
  | .arr xs => .arr (pruneArrA xs)
  | .obj fs => .obj (pruneArrF fs)
  | v => v

def pruneArrA : JArr → JArr
  | .nil => .nil
  | .cons _ rest => .cons .null (pruneArrA rest)

def pruneArrF : JFields → JFields
  | .nil => .nil
  | .cons k v rest => .cons k (pruneArrV v) (pruneArrF rest)
end

mutual
theorem checkNamingValue_prune : ∀ (v : JValue) (p : String),
    checkNamingValue (pruneArrV v) p = checkNamingValue v p
  | .null, _ => rfl
  | .undef, _ => rfl
  | .bool _, _ => rfl
  | .num _, _ => rfl
  | .str _, _ => rfl
  | .arr _, _ => rfl
  | .obj fs, p => checkNamingConventions_prune fs p

theorem checkNamingConventions_prune : ∀ (fs : JFields) (p : String),
    checkNamingConventions (pruneArrF fs) p = checkNamingConventions fs p
  | .nil, _ => rfl
  | .cons k v rest, p => by
      simp only [pruneArrF, checkNamingConventions]
      rw [checkNamingValue_prune v, checkNamingConventions_prune rest]
end

mutual
theorem checkForUndefinedValues_prune : ∀ (v : JValue) (p : String),
    checkForUndefinedValues (pruneArrV v) p = checkForUndefinedValues v p
  | .null, _ => rfl
  | .undef, _ => rfl
  | .bool _, _ => rfl
  | .num _, _ => rfl
  | .str _, _ => rfl
  | .arr _, _ => rfl
  | .obj fs, p => undefinedFieldErrors_prune fs p

theorem undefinedFieldErrors_prune : ∀ (fs : JFields) (p : String),
    undefinedFieldErrors (pruneArrF fs) p = undefinedFieldErrors fs p
  | .nil, _ => rfl
  | .cons k v rest, p => by
      simp only [pruneArrF, undefinedFieldErrors, undefinedValueErrors_prune v,
        undefinedFieldErrors_prune rest]

theorem undefinedValueErrors_prune : ∀ (v : JValue) (p : String),
    undefinedValueErrors (pruneArrV v) p = undefinedValueErrors v p
  | .null, _ => rfl
  | .undef, _ => rfl
  | .bool _, _ => rfl
  | .num _, _ => rfl
  | .str _, _ => rfl
  | .arr _, _ => rfl
  | .obj fs, p => undefinedFieldErrors_prune fs p
end

mutual
theorem checkForStringifiedNulls_prune : ∀ (v : JValue) (p : String),
    checkForStringifiedNulls (pruneArrV v) p = checkForStringifiedNulls v p
  | .null, _ => rfl
  | .undef, _ => rfl
  | .bool _, _ => rfl
  | .num _, _ => rfl
  | .str _, _ => rfl
  | .arr _, _ => rfl
  | .obj fs, p => stringifiedNullFieldErrors_prune fs p

theorem stringifiedNullFieldErrors_prune : ∀ (fs : JFields) (p : String),
    stringifiedNullFieldErrors (pruneArrF fs) p = stringifiedNullFieldErrors fs p
  | .nil, _ => rfl
  | .cons k v rest, p => by
      simp only [pruneArrF, stringifiedNullFieldErrors, stringifiedNullValueErrors_prune v,
        stringifiedNullFieldErrors_prune rest]

theorem stringifiedNullValueErrors_prune : ∀ (v : JValue) (p : String),
    stringifiedNullValueErrors (pruneArrV v) p = stringifiedNullValueErrors v p
  | .null, _ => rfl
  | .undef, _ => rfl
  | .bool _, _ => rfl
  | .num _, _ => rfl
  | .str _, _ => rfl
  | .arr _, _ => rfl
  | .obj fs, p => stringifiedNullFieldErrors_prune fs p
end

mutual
theorem checkForPII_prune : ∀ (v : JValue) (p : String),
    checkForPII (pruneArrV v) p = checkForPII v p
  | .null, _ => rfl
  | .undef, _ => rfl
  | .bool _, _ => rfl
  | .num _, _ => rfl
  | .str _, _ => rfl
  | .arr _, _ => rfl
  | .obj fs, p => piiFieldWarnings_prune fs p

theorem piiFieldWarnings_prune : ∀ (fs : JFields) (p : String),
    piiFieldWarnings (pruneArrF fs) p = piiFieldWarnings fs p
  | .nil, _ => rfl
  | .cons k v rest, p => by
      simp only [pruneArrF, piiFieldWarnings, piiValueWarnings_prune v,
        piiFieldWarnings_prune rest]

theorem piiValueWarnings_prune : ∀ (v : JValue) (p : String),
    piiValueWarnings (pruneArrV v) p = piiValueWarnings v p
  | .null, _ => rfl
  | .undef, _ => rfl
  | .bool _, _ => rfl
  | .num _, _ => rfl
  | .str _, _ => rfl
  | .arr _, _ => rfl
  | .obj fs, p => piiFieldWarnings_prune fs p
end

mutual
theorem checkEmptyValues_prune : ∀ (v : JValue) (p : String),
    checkEmptyValues (pruneArrV v) p = checkEmptyValues v p
  | .null, _ => rfl
  | .undef, _ => rfl
  | .bool _, _ => rfl
  | .num _, _ => rfl
  | .str _, _ => rfl
  | .arr _, _ => rfl
  | .obj fs, p => emptyValueIssues_prune fs p

theorem emptyValueIssues_prune : ∀ (fs : JFields) (p : String),
    emptyValueIssues (pruneArrF fs) p = emptyValueIssues fs p
  | .nil, _ => rfl
  | .cons k v rest, p => by
      cases v with
      | null => simp only [pruneArrF, pruneArrV, emptyValueIssues,
          emptyValueIssues_prune rest]
      | undef => simp only [pruneArrF, pruneArrV, emptyValueIssues,
          emptyValueIssues_prune rest]
      | bool b => simp only [pruneArrF, pruneArrV, emptyValueIssues,
          emptyValueIssues_prune rest]
      | num n => simp only [pruneArrF, pruneArrV, emptyValueIssues,
          emptyValueIssues_prune rest]
      | str s => simp only [pruneArrF, pruneArrV, emptyValueIssues,
          emptyValueIssues_prune rest]
      | arr xs =>
          cases xs with
          | nil => simp only [pruneArrF, pruneArrV, pruneArrA, emptyValueIssues,
              emptyValueIssues_prune rest]
          | cons x xs' => simp only [pruneArrF, pruneArrV, pruneArrA, emptyValueIssues,
              emptyValueIssues_prune rest]
      | obj gs => simp only [pruneArrF, pruneArrV, emptyValueIssues,
          emptyValueIssues_prune gs, emptyValueIssues_prune rest]
end

mutual
theorem checkDataTypes_prune : ∀ (v : JValue) (p : String),
    checkDataTypes (pruneArrV v) p = checkDataTypes v p
  | .null, _ => rfl
  | .undef, _ => rfl
  | .bool _, _ => rfl
  | .num _, _ => rfl
  | .str _, _ => rfl
  | .arr _, _ => rfl
  | .obj fs, p => dataTypeMismatches_prune fs p

theorem dataTypeMismatches_prune : ∀ (fs : JFields) (p : String),
    dataTypeMismatches (pruneArrF fs) p = dataTypeMismatches fs p
  | .nil, _ => rfl
  | .cons k v rest, p => by
      cases v with
      | null => simp only [pruneArrF, pruneArrV, dataTypeMismatches,
          dataTypeMismatches_prune rest]
      | undef => simp only [pruneArrF, pruneArrV, dataTypeMismatches,
          dataTypeMismatches_prune rest]
      | bool b => simp only [pruneArrF, pruneArrV, dataTypeMismatches,
          dataTypeMismatches_prune rest]
      | num n => simp only [pruneArrF, pruneArrV, dataTypeMismatches,
          dataTypeMismatches_prune rest]
      | str s => simp only [pruneArrF, pruneArrV, dataTypeMismatches,
          dataTypeMismatches_prune rest]
      | arr xs => simp [pruneArrF, pruneArrV, jsTypeof, dataTypeMismatches,
          dataTypeMismatches_prune rest]
      | obj gs => simp [pruneArrF, pruneArrV, jsTypeof, dataTypeMismatches,
          dataTypeMismatches_prune gs, dataTypeMismatches_prune rest]
end

/-- C10.  None of the recursive traversals of the core — the
naming-convention checker, the undefined-value and stringified-null
scans, the PII scan, the debug empty-value scan and the debug
type-mismatch scan — descends into array elements: replacing every
array element of the document by `null` (`pruneArrV`, which erases in
particular every key and string value occurring only inside an array
element, such as the entries of `products`) leaves each of their
outputs unchanged, at every path. -/
theorem traversals_ignore_array_contents (v : JValue) (fs : JFields) (path : String) :
    checkNamingConventions (pruneArrF fs) path = checkNamingConventions fs path
      ∧ checkForUndefinedValues (pruneArrV v) path = checkForUndefinedValues v path
      ∧ checkForStringifiedNulls (pruneArrV v) path = checkForStringifiedNulls v path
      ∧ checkForPII (pruneArrV v) path = checkForPII v path
      ∧ checkEmptyValues (pruneArrV v) path = checkEmptyValues v path
      ∧ checkDataTypes (pruneArrV v) path = checkDataTypes v path :=
  ⟨checkNamingConventions_prune fs path,
   checkForUndefinedValues_prune v path,
   checkForStringifiedNulls_prune v path,
   checkForPII_prune v path,
   checkEmptyValues_prune v path,
   checkDataTypes_prune v path⟩


/-! ## C7: the PII scan -/

theorem ite_cond_false {α} {c : Bool} (a b : α) (h : c = false) :
    (if c then a else b) = b := by
  rw [h]; rfl

theorem ite_cond_true {α} {c : Bool} (a b : α) (h : c = true) :
    (if c then a else b) = a := by
  rw [h]; rfl

/-- Single-motive induction for `JFields` (its own recursor is the
multi-motive mutual one). -/
theorem JFields.inductionOn {motive : JFields → Prop} (nil : motive .nil)
    (cons : ∀ k v rest, motive rest → motive (.cons k v rest)) :
    ∀ fs, motive fs
  | .nil => nil
  | .cons k v rest => cons k v rest (JFields.inductionOn nil cons rest)

mutual
/-- Replace the value stored under each `checkForPII` skip key (anywhere
in the document) by `null`. -/
def scrubSkipV : JValue → JValue
  | .obj fs => .obj (scrubSkipF fs)
  | v => v

def scrubSkipF : JFields → JFields
  | .nil => .nil
  | .cons k v rest =>
      .cons k (if piiSkipKeys.contains k then .null else scrubSkipV v) (scrubSkipF rest)
end

mutual
theorem checkForPII_scrub : ∀ (v : JValue) (p : String),
    checkForPII (scrubSkipV v) p = checkForPII v p
  | .null, _ => rfl
  | .undef, _ => rfl
  | .bool _, _ => rfl
  | .num _, _ => rfl
  | .str _, _ => rfl
  | .arr _, _ => rfl
  | .obj fs, p => piiFieldWarnings_scrub fs p

theorem piiFieldWarnings_scrub : ∀ (fs : JFields) (p : String),
    piiFieldWarnings (scrubSkipF fs) p = piiFieldWarnings fs p
  | .nil, _ => rfl
  | .cons k v rest, p => by
      rcases hc : piiSkipKeys.contains k with _ | _
      · simp only [scrubSkipF, piiFieldWarnings]
        rw [ite_cond_false _ _ hc, ite_cond_false _ _ hc, ite_cond_false _ _ hc,
          piiValueWarnings_scrub v, piiFieldWarnings_scrub rest]
      · simp only [scrubSkipF, piiFieldWarnings]
        rw [ite_cond_true _ _ hc, ite_cond_true _ _ hc,
          piiFieldWarnings_scrub rest]

theorem piiValueWarnings_scrub : ∀ (v : JValue) (p : String),
    piiValueWarnings (scrubSkipV v) p = piiValueWarnings v p
  | .null, _ => rfl
  | .undef, _ => rfl
  | .bool _, _ => rfl
  | .num _, _ => rfl
  | .str _, _ => rfl
  | .arr _, _ => rfl
  | .obj fs, p => piiFieldWarnings_scrub fs p
end

theorem piiFieldWarnings_complete (fs : JFields) (p k s : String)
    (tester : String → Bool) (name : String)
    (hmem : (k, JValue.str s) ∈ fs.toList)
    (hskip : piiSkipKeys.contains k = false)
    (hpat : (tester, name) ∈ piiPatterns)
    (htest : tester s = true) :
    piiWarning name (joinPath p k) ∈ piiFieldWarnings fs p := by
  induction fs using JFields.inductionOn with
  | nil => simp [JFields.toList] at hmem
  | cons k' v rest ih =>
      simp only [JFields.toList, List.mem_cons] at hmem
      rcases hmem with heq | htail
      · have hk : k' = k := ((Prod.mk.injEq ..).mp heq.symm).1
        have hv : v = JValue.str s := ((Prod.mk.injEq ..).mp heq.symm).2
        subst hk; subst hv
        apply List.mem_append_left
        rw [ite_cond_false _ _ hskip]
        simp only [piiValueWarnings]
        apply List.mem_filterMap.mpr
        exact ⟨(tester, name), hpat, by simp [htest]⟩
      · exact List.mem_append_right _ (ih htail)

theorem piiFieldWarnings_descend (fs : JFields) (p k : String) (sub : JFields)
    (w : ValidationWarning)
    (hmem : (k, JValue.obj sub) ∈ fs.toList)
    (hskip : piiSkipKeys.contains k = false)
    (hw : w ∈ piiFieldWarnings sub (joinPath p k)) :
    w ∈ piiFieldWarnings fs p := by
  induction fs using JFields.inductionOn with
  | nil => simp [JFields.toList] at hmem
  | cons k' v rest ih =>
      simp only [JFields.toList, List.mem_cons] at hmem
      rcases hmem with heq | htail
      · have hk : k' = k := ((Prod.mk.injEq ..).mp heq.symm).1
        have hv : v = JValue.obj sub := ((Prod.mk.injEq ..).mp heq.symm).2
        subst hk; subst hv
        apply List.mem_append_left
        rw [ite_cond_false _ _ hskip]
        exact hw
      · exact List.mem_append_right _ (ih htail)

mutual
theorem piiFieldWarnings_advisory : ∀ (fs : JFields) (p : String) (w : ValidationWarning),
    w ∈ piiFieldWarnings fs p → ∃ name currentPath, w = piiWarning name currentPath
  | .nil, _, _, hw => by simp [piiFieldWarnings] at hw
  | .cons k v rest, p, w, hw => by
      simp only [piiFieldWarnings] at hw
      rcases List.mem_append.mp hw with hhead | htail
      · rcases hc : piiSkipKeys.contains k with _ | _
        · rw [ite_cond_false _ _ hc] at hhead
          exact piiValueWarnings_advisory v (joinPath p k) w hhead
        · rw [ite_cond_true _ _ hc] at hhead
          simp at hhead
      · exact piiFieldWarnings_advisory rest p w htail

theorem piiValueWarnings_advisory : ∀ (v : JValue) (p : String) (w : ValidationWarning),
    w ∈ piiValueWarnings v p → ∃ name currentPath, w = piiWarning name currentPath
  | .null, _, _, hw => by simp [piiValueWarnings] at hw
  | .undef, _, _, hw => by simp [piiValueWarnings] at hw
  | .bool _, _, _, hw => by simp [piiValueWarnings] at hw
  | .num _, _, _, hw => by simp [piiValueWarnings] at hw
  | .arr _, _, _, hw => by simp [piiValueWarnings] at hw
  | .str s, p, w, hw => by
      simp only [piiValueWarnings] at hw
      rcases List.mem_filterMap.mp hw with ⟨pr, _, hsome⟩
      rcases hite : pr.1 s with _ | _
      · rw [hite] at hsome; simp at hsome
      · rw [hite] at hsome
        simp only [if_true] at hsome
        exact ⟨pr.2, p, ((Option.some.injEq ..).mp hsome).symm⟩
  | .obj gs, p, w, hw => piiFieldWarnings_advisory gs p w hw
end

/-- C7 (amended).  The PII scan: (1) every string entry of a record
whose key is not one of the four skip keys and whose value matches one
of the three PII patterns produces the corresponding warning naming the
PII category; (2) the scan descends into nested records under non-skip
keys (so (1) applies at every record nesting depth); (3) the values
stored under the skip keys `userId`, `visitorId`, `bookingId`,
`transactionId` — including whole subtrees — never influence the output
(they are never flagged, even when they match a pattern); (4)
everything the scan produces is an advisory `piiWarning` record, never
an error (`validateTealiumRules` feeds `checkForPII` into `warnings`
only).  Array elements are never scanned (see the counterexample
and C10). -/
theorem checkForPII_spec :
    (∀ (fs : JFields) (p k s : String) (tester : String → Bool) (name : String),
        (k, JValue.str s) ∈ fs.toList → piiSkipKeys.contains k = false →
        (tester, name) ∈ piiPatterns → tester s = true →
        piiWarning name (joinPath p k) ∈ checkForPII (.obj fs) p)
      ∧ (∀ (fs : JFields) (p k : String) (sub : JFields) (w : ValidationWarning),
          (k, JValue.obj sub) ∈ fs.toList → piiSkipKeys.contains k = false →
          w ∈ checkForPII (.obj sub) (joinPath p k) → w ∈ checkForPII (.obj fs) p)
      ∧ (∀ (v : JValue) (p : String), checkForPII (scrubSkipV v) p = checkForPII v p)
      ∧ (∀ (v : JValue) (p : String) (w : ValidationWarning),
          w ∈ checkForPII v p → ∃ name currentPath, w = piiWarning name currentPath) :=
  ⟨fun fs p k s tester name hmem hskip hpat htest =>
      piiFieldWarnings_complete fs p k s tester name hmem hskip hpat htest,
   fun fs p k sub w hmem hskip hw => piiFieldWarnings_descend fs p k sub w hmem hskip hw,
   checkForPII_scrub,
   fun v p w hw => match v, hw with
     | .obj fs, hw => piiFieldWarnings_advisory fs p w hw⟩

/-- C7 witness: an email-shaped string under a non-skip key at the top
level is flagged as an "email address". -/
theorem checkForPII_spec_witness :
    piiWarning "email address" "contact"
      ∈ checkForPII (jobj [("contact", .str "john@example.com")]) "" :=
  checkForPII_spec.1 (JFields.ofList [("contact", .str "john@example.com")]) "" "contact"
    "john@example.com" emailTest "email address"
    (by decide) (by decide) (List.mem_cons_self _ _) (by decide)

/-- C7 counterexample to the frozen claim: a string leaf reachable in
the document but sitting inside an ARRAY element matches the email
pattern, yet the business-rule validator produces no warning at all —
the PII scan does not descend into arrays, so "every string leaf
reachable in the document" fails. -/
theorem checkForPII_array_leaf_not_flagged :
    emailTest "john@example.com" = true
      ∧ (validateTealiumRules (jobj [("misc", jarr [.str "john@example.com"])])).warnings = [] := by
  constructor <;> decide

/-! ## C9: the camelCase check of the naming validator -/

theorem msg_ne_of_head {m1 m2 : String} {c1 c2 : Char}
    (h1 : m1.data.head? = some c1) (h2 : m2.data.head? = some c2) (hne : c1 ≠ c2) :
    m1 ≠ m2 := by
  intro he
  rw [he, h2] at h1
  exact hne (((Option.some.injEq ..).mp h1).symm)

theorem msg_ne_of_last {m1 m2 : String} {c1 c2 : Char}
    (h1 : m1.data.getLast? = some c1) (h2 : m2.data.getLast? = some c2) (hne : c1 ≠ c2) :
    m1 ≠ m2 := by
  intro he
  rw [he, h2] at h1
  exact hne (((Option.some.injEq ..).mp h1).symm)

theorem camelMsg_head (k : String) : (camelMsg k).data.head? = some 'V' :=
  strHead_append _ (strHead_append _ rfl)

theorem camelMsg_last (k : String) : (camelMsg k).data.getLast? = some 'e' :=
  strLast_append _ rfl

theorem reservedMsg_head (k : String) : (reservedMsg k).data.head? = some '"' :=
  strHead_append _ (strHead_append _ rfl)

theorem tooShortMsg_last (k : String) : (tooShortMsg k).data.getLast? = some 't' :=
  strLast_append _ rfl

theorem abbrevMsg_last (k : String) : (abbrevMsg k).data.getLast? = some 'n' :=
  strLast_append _ rfl

theorem camelMsg_inj {k k' : String} (h : camelMsg k = camelMsg k') : k = k' := by
  unfold camelMsg at h
  exact strAppend_left_cancel (strAppend_right_cancel h)

mutual
theorem checkNamingValue_sound : ∀ (v : JValue) (p : String) (w : ValidationWarning)
    (k : String), w ∈ checkNamingValue v p → w.message = camelMsg k →
    isCamelCase k = false ∧ KNOWN_PREFIXES.contains k = false
      ∧ w.suggestion = some (camelSuggestion k)
  | .obj fs, p, w, k, hw, hm => checkNamingConventions_sound fs p w k hw hm
  | .null, _, _, _, hw, _ => by simp [checkNamingValue] at hw
  | .undef, _, _, _, hw, _ => by simp [checkNamingValue] at hw
  | .bool _, _, _, _, hw, _ => by simp [checkNamingValue] at hw
  | .num _, _, _, _, hw, _ => by simp [checkNamingValue] at hw
  | .str _, _, _, _, hw, _ => by simp [checkNamingValue] at hw
  | .arr _, _, _, _, hw, _ => by simp [checkNamingValue] at hw

theorem checkNamingConventions_sound : ∀ (fs : JFields) (p : String) (w : ValidationWarning)
    (k : String), w ∈ checkNamingConventions fs p → w.message = camelMsg k →
    isCamelCase k = false ∧ KNOWN_PREFIXES.contains k = false
      ∧ w.suggestion = some (camelSuggestion k)
  | .nil, _, _, _, hw, _ => by simp [checkNamingConventions] at hw
  | .cons k' v rest, p, w, k, hw, hm => by
      simp only [checkNamingConventions] at hw
      rcases List.mem_append.mp hw with h1 | hrest
      · rcases List.mem_append.mp h1 with hkey | hval
        · unfold keyWarnings at hkey
          rcases List.mem_append.mp hkey with h2 | habbrev
          · rcases List.mem_append.mp h2 with h3 | hshort
            · rcases List.mem_append.mp h3 with hcamel | hres
              · obtain ⟨hcond, hwq⟩ := mem_if_singleton hcamel
                subst hwq
                have hk : k' = k := camelMsg_inj hm
                subst hk
                simp only [Bool.and_eq_true, Bool.not_eq_true'] at hcond
                exact ⟨hcond.1, hcond.2, rfl⟩
              · obtain ⟨_, hwq⟩ := mem_if_singleton hres
                subst hwq
                exact absurd hm
                  (msg_ne_of_head (reservedMsg_head k') (camelMsg_head k) (by decide))
            · obtain ⟨_, hwq⟩ := mem_if_singleton hshort
              subst hwq
              exact absurd hm
                (msg_ne_of_last (tooShortMsg_last k') (camelMsg_last k) (by decide))
          · obtain ⟨_, hwq⟩ := mem_if_singleton habbrev
            subst hwq
            exact absurd hm
              (msg_ne_of_last (abbrevMsg_last k') (camelMsg_last k) (by decide))
        · exact checkNamingValue_sound v (joinPath p k') w k hval hm
      · exact checkNamingConventions_sound rest p w k hrest hm
end

theorem checkNamingConventions_flags (fs : JFields) (p k : String) (v : JValue)
    (hmem : (k, v) ∈ fs.toList)
    (h1 : isCamelCase k = false) (h2 : KNOWN_PREFIXES.contains k = false) :
    camelWarning (joinPath p k) k ∈ checkNamingConventions fs p := by
  induction fs using JFields.inductionOn with
  | nil => simp [JFields.toList] at hmem
  | cons k' v' rest ih =>
      simp only [JFields.toList, List.mem_cons] at hmem
      rcases hmem with heq | htail
      · have hk : k' = k := ((Prod.mk.injEq ..).mp heq.symm).1
        subst hk
        apply List.mem_append_left
        apply List.mem_append_left
        unfold keyWarnings
        apply List.mem_append_left
        apply List.mem_append_left
        apply List.mem_append_left
        apply if_singleton_mem
        simp only [Bool.and_eq_true, Bool.not_eq_true']
        exact ⟨h1, h2⟩
      · exact List.mem_append_right _ (ih htail)

theorem checkNamingConventions_descend (fs : JFields) (p k : String) (sub : JFields)
    (w : ValidationWarning)
    (hmem : (k, JValue.obj sub) ∈ fs.toList)
    (hw : w ∈ checkNamingConventions sub (joinPath p k)) :
    w ∈ checkNamingConventions fs p := by
  induction fs using JFields.inductionOn with
  | nil => simp [JFields.toList] at hmem
  | cons k' v' rest ih =>
      simp only [JFields.toList, List.mem_cons] at hmem
      rcases hmem with heq | htail
      · have hk : k' = k := ((Prod.mk.injEq ..).mp heq.symm).1
        have hv : v' = JValue.obj sub := ((Prod.mk.injEq ..).mp heq.symm).2
        subst hk; subst hv
        apply List.mem_append_left
        exact List.mem_append_right _ hw
      · exact List.mem_append_right _ (ih htail)

/-- C9.  The camelCase check of the naming validator: (1) for every key
of a record, the camelCase warning for that key (whose attached
suggestion is the `toCamelCase` rewrite — separator runs `-`/`_`/
whitespace stripped, following character uppercased, first character
lowercased) is produced if and only if the key neither matches
`^[a-z][a-zA-Z0-9]*$` nor is — case-sensitively — one of the ten known
domain prefixes; (2) the checker recurses into nested records, so (1)
applies at every depth; (3) soundness: any produced warning carrying a
camelCase message for a key `k` implies `k` fails both tests and the
warning's suggestion is the `toCamelCase` rewrite of `k`. -/
theorem checkNamingConventions_camelCase_spec :
    (∀ (fs : JFields) (p k : String) (v : JValue), (k, v) ∈ fs.toList →
        (camelWarning (joinPath p k) k ∈ checkNamingConventions fs p
          ↔ isCamelCase k = false ∧ KNOWN_PREFIXES.contains k = false))
      ∧ (∀ (fs : JFields) (p k : String) (sub : JFields) (w : ValidationWarning),
          (k, JValue.obj sub) ∈ fs.toList →
          w ∈ checkNamingConventions sub (joinPath p k) → w ∈ checkNamingConventions fs p)
      ∧ (∀ (fs : JFields) (p : String) (w : ValidationWarning) (k : String),
          w ∈ checkNamingConventions fs p → w.message = camelMsg k →
          isCamelCase k = false ∧ KNOWN_PREFIXES.contains k = false
            ∧ w.suggestion = some (camelSuggestion k)) :=
  ⟨fun fs p k v hmem =>
      ⟨fun hin =>
          have h := checkNamingConventions_sound fs p (camelWarning (joinPath p k) k) k hin rfl
          ⟨h.1, h.2.1⟩,
        fun hc => checkNamingConventions_flags fs p k v hmem hc.1 hc.2⟩,
   checkNamingConventions_descend,
   checkNamingConventions_sound⟩

/-- C9 witness: the key `Hotel_Name` (not camelCase, not a known
prefix) is flagged with the suggestion `hotelName`; the key `hotel`
(a known prefix) produces no warning at all. -/
theorem checkNamingConventions_camelCase_spec_witness :
    camelWarning "Hotel_Name" "Hotel_Name"
        ∈ checkNamingConventions (JFields.ofList [("Hotel_Name", .str "Hilton")]) ""
      ∧ camelSuggestion "Hotel_Name" = "Consider renaming to \"hotelName\""
      ∧ checkNamingConventions (JFields.ofList [("hotel", .str "x")]) "" = [] :=
  ⟨(checkNamingConventions_camelCase_spec.1 (JFields.ofList [("Hotel_Name", .str "Hilton")])
      "" "Hotel_Name" (.str "Hilton") (by decide)).mpr ⟨by decide, by decide⟩,
   by decide, by decide⟩

/-! ## C8: booking date ordering and nights consistency -/

theorem mem_ite_nil_singleton {α} {c : Prop} [Decidable c] {x w : α}
    (h : w ∈ (if c then [] else [x])) : w = x := by
  split at h
  · simp at h
  · simpa using h

theorem checkOutErr_head (v : JValue) :
    (checkOutBeforeCheckInError v).message.data.head? = some 'C' := rfl

theorem nightsWarn_head (v : JValue) (estr : String) :
    (nightsMismatchWarning v estr).message.data.head? = some 'b' :=
  strHead_append _ (strHead_append _ (strHead_append _ (strHead_append _ rfl)))

mutual
theorem checkForUndefinedValues_head : ∀ (v : JValue) (p : String) (e : ValidationError),
    e ∈ checkForUndefinedValues v p → e.message.data.head? = some 'V'
  | .undef, p, e, he => by
      rw [List.mem_singleton.mp (show e ∈ [({ path := (if p = "" then "/" else p), message := "Value is undefined - this may cause tracking issues", value := some .undef } : ValidationError)] from he)]
      rfl
  | .obj fs, p, e, he => undefinedFieldErrors_head fs p e he
  | .null, _, e, he =>
      absurd (show e ∈ ([] : List ValidationError) from he) (List.not_mem_nil e)
  | .bool _, _, e, he =>
      absurd (show e ∈ ([] : List ValidationError) from he) (List.not_mem_nil e)
  | .num _, _, e, he =>
      absurd (show e ∈ ([] : List ValidationError) from he) (List.not_mem_nil e)
  | .str _, _, e, he =>
      absurd (show e ∈ ([] : List ValidationError) from he) (List.not_mem_nil e)
  | .arr _, _, e, he =>
      absurd (show e ∈ ([] : List ValidationError) from he) (List.not_mem_nil e)

theorem undefinedFieldErrors_head : ∀ (fs : JFields) (p : String) (e : ValidationError),
    e ∈ undefinedFieldErrors fs p → e.message.data.head? = some 'V'
  | .nil, _, e, he =>
      absurd (show e ∈ ([] : List ValidationError) from he) (List.not_mem_nil e)
  | .cons k v rest, p, e, he => by
      rcases List.mem_append.mp
          (show e ∈ undefinedValueErrors v (joinPath p k) ++ undefinedFieldErrors rest p
            from he) with hh | ht
      · exact undefinedValueErrors_head v (joinPath p k) e hh
      · exact undefinedFieldErrors_head rest p e ht

theorem undefinedValueErrors_head : ∀ (v : JValue) (p : String) (e : ValidationError),
    e ∈ undefinedValueErrors v p → e.message.data.head? = some 'V'
  | .undef, p, e, he => by
      rw [List.mem_singleton.mp (show e ∈ [({ path := p, message := "Value is undefined - remove or set to null", value := some .undef } : ValidationError)] from he)]
      rfl
  | .obj gs, p, e, he => undefinedFieldErrors_head gs p e he
  | .null, _, e, he =>
      absurd (show e ∈ ([] : List ValidationError) from he) (List.not_mem_nil e)
  | .bool _, _, e, he =>
      absurd (show e ∈ ([] : List ValidationError) from he) (List.not_mem_nil e)
  | .num _, _, e, he =>
      absurd (show e ∈ ([] : List ValidationError) from he) (List.not_mem_nil e)
  | .str _, _, e, he =>
      absurd (show e ∈ ([] : List ValidationError) from he) (List.not_mem_nil e)
  | .arr _, _, e, he =>
      absurd (show e ∈ ([] : List ValidationError) from he) (List.not_mem_nil e)
end

theorem stringifiedNullMsg_head (s : String) :
    (stringifiedNullMsg s).data.head? = some 'S' :=
  strHead_append _ (strHead_append _ rfl)

mutual
theorem checkForStringifiedNulls_head : ∀ (v : JValue) (p : String) (e : ValidationError),
    e ∈ checkForStringifiedNulls v p → e.message.data.head? = some 'S'
  | .obj fs, p, e, he => stringifiedNullFieldErrors_head fs p e he
  | .undef, _, e, he =>
      absurd (show e ∈ ([] : List ValidationError) from he) (List.not_mem_nil e)
  | .null, _, e, he =>
      absurd (show e ∈ ([] : List ValidationError) from he) (List.not_mem_nil e)
  | .bool _, _, e, he =>
      absurd (show e ∈ ([] : List ValidationError) from he) (List.not_mem_nil e)
  | .num _, _, e, he =>
      absurd (show e ∈ ([] : List ValidationError) from he) (List.not_mem_nil e)
  | .str _, _, e, he =>
      absurd (show e ∈ ([] : List ValidationError) from he) (List.not_mem_nil e)
  | .arr _, _, e, he =>
      absurd (show e ∈ ([] : List ValidationError) from he) (List.not_mem_nil e)

theorem stringifiedNullFieldErrors_head : ∀ (fs : JFields) (p : String) (e : ValidationError),
    e ∈ stringifiedNullFieldErrors fs p → e.message.data.head? = some 'S'
  | .nil, _, e, he =>
      absurd (show e ∈ ([] : List ValidationError) from he) (List.not_mem_nil e)
  | .cons k v rest, p, e, he => by
      rcases List.mem_append.mp
          (show e ∈ stringifiedNullValueErrors v (joinPath p k)
              ++ stringifiedNullFieldErrors rest p from he) with hh | ht
      · exact stringifiedNullValueErrors_head v (joinPath p k) e hh
      · exact stringifiedNullFieldErrors_head rest p e ht

theorem stringifiedNullValueErrors_head : ∀ (v : JValue) (p : String) (e : ValidationError),
    e ∈ stringifiedNullValueErrors v p → e.message.data.head? = some 'S'
  | .str s, p, e, he => by
      obtain ⟨_, heq⟩ := mem_if_singleton (show e ∈
        (if strLower s = "undefined" || strLower s = "null" || strLower s = "nan" then
          [({ path := p, message := stringifiedNullMsg s, value := some (.str s),
              expected := some "Use actual null or remove the property" } : ValidationError)]
        else []) from he)
      rw [heq]
      exact stringifiedNullMsg_head s
  | .obj gs, p, e, he => stringifiedNullFieldErrors_head gs p e he
  | .undef, _, e, he =>
      absurd (show e ∈ ([] : List ValidationError) from he) (List.not_mem_nil e)
  | .null, _, e, he =>
      absurd (show e ∈ ([] : List ValidationError) from he) (List.not_mem_nil e)
  | .bool _, _, e, he =>
      absurd (show e ∈ ([] : List ValidationError) from he) (List.not_mem_nil e)
  | .num _, _, e, he =>
      absurd (show e ∈ ([] : List ValidationError) from he) (List.not_mem_nil e)
  | .arr _, _, e, he =>
      absurd (show e ∈ ([] : List ValidationError) from he) (List.not_mem_nil e)
end

theorem checkForPII_head (v : JValue) (p : String) (w : ValidationWarning)
    (hw : w ∈ checkForPII v p) : w.message.data.head? = some 'P' := by
  cases v with
  | obj fs =>
      obtain ⟨name, cp, rfl⟩ := piiFieldWarnings_advisory fs p w hw
      exact strHead_append _ (strHead_append _ rfl)
  | undef => exact absurd (show w ∈ ([] : List ValidationWarning) from hw) (List.not_mem_nil w)
  | null => exact absurd (show w ∈ ([] : List ValidationWarning) from hw) (List.not_mem_nil w)
  | bool b => exact absurd (show w ∈ ([] : List ValidationWarning) from hw) (List.not_mem_nil w)
  | num n => exact absurd (show w ∈ ([] : List ValidationWarning) from hw) (List.not_mem_nil w)
  | str s => exact absurd (show w ∈ ([] : List ValidationWarning) from hw) (List.not_mem_nil w)
  | arr xs => exact absurd (show w ∈ ([] : List ValidationWarning) from hw) (List.not_mem_nil w)

theorem currencyWarnings_head (dataLayer : JValue) (w : ValidationWarning)
    (hw : w ∈ currencyWarnings dataLayer) : w.message.data.head? = some 'C' := by
  simp only [currencyWarnings] at hw
  split at hw
  · exact absurd hw (List.not_mem_nil w)
  · split at hw
    · exact absurd hw (List.not_mem_nil w)
    · rw [List.mem_singleton.mp hw]
      exact strHead_append _ (strHead_append _ rfl)

theorem languageWarnings_head (dataLayer : JValue) (w : ValidationWarning)
    (hw : w ∈ languageWarnings dataLayer) : w.message.data.head? = some 'L' := by
  simp only [languageWarnings] at hw
  split at hw
  · exact absurd hw (List.not_mem_nil w)
  · split at hw
    · exact absurd hw (List.not_mem_nil w)
    · rw [List.mem_singleton.mp hw]
      exact strHead_append _ (strHead_append _ rfl)

theorem checkPriceValues_head (dataLayer : JValue) (w : ValidationWarning)
    (hw : w ∈ checkPriceValues dataLayer) : w.message.data.head? = some 'P' := by
  simp only [checkPriceValues] at hw
  rcases List.mem_filterMap.mp hw with ⟨pr, _, hsome⟩
  cases hv : pr.2 with
  | str s =>
      rw [hv] at hsome
      rw [← (Option.some.injEq ..).mp (show some (priceStringWarning pr.1 s) = some w from hsome)]
      rfl
  | undef => rw [hv] at hsome
             exact Option.noConfusion (show (none : Option ValidationWarning) = some w from hsome)
  | null => rw [hv] at hsome
            exact Option.noConfusion (show (none : Option ValidationWarning) = some w from hsome)
  | bool b => rw [hv] at hsome
              exact Option.noConfusion (show (none : Option ValidationWarning) = some w from hsome)
  | num n => rw [hv] at hsome
             exact Option.noConfusion (show (none : Option ValidationWarning) = some w from hsome)
  | arr xs => rw [hv] at hsome
              exact Option.noConfusion (show (none : Option ValidationWarning) = some w from hsome)
  | obj gs => rw [hv] at hsome
              exact Option.noConfusion (show (none : Option ValidationWarning) = some w from hsome)

theorem checkDateFormats_head (dataLayer : JValue) (w : ValidationWarning)
    (hw : w ∈ checkDateFormats dataLayer) : w.message.data.head? = some 'D' := by
  simp only [checkDateFormats] at hw
  rcases List.mem_filterMap.mp hw with ⟨pr, _, hsome⟩
  cases hv : pr.2 with
  | str s =>
      rw [hv] at hsome
      have hsome' : (if !isIsoDateFormat s then some (dateFormatWarning pr.1 s) else none)
          = some w := hsome
      split at hsome'
      · rw [← (Option.some.injEq ..).mp hsome']
        exact strHead_append _ (strHead_append _ rfl)
      · exact Option.noConfusion hsome'
  | undef => rw [hv] at hsome
             exact Option.noConfusion (show (none : Option ValidationWarning) = some w from hsome)
  | null => rw [hv] at hsome
            exact Option.noConfusion (show (none : Option ValidationWarning) = some w from hsome)
  | bool b => rw [hv] at hsome
              exact Option.noConfusion (show (none : Option ValidationWarning) = some w from hsome)
  | num n => rw [hv] at hsome
             exact Option.noConfusion (show (none : Option ValidationWarning) = some w from hsome)
  | arr xs => rw [hv] at hsome
              exact Option.noConfusion (show (none : Option ValidationWarning) = some w from hsome)
  | obj gs => rw [hv] at hsome
              exact Option.noConfusion (show (none : Option ValidationWarning) = some w from hsome)

theorem hotelStarRatingWarnings_head : ∀ (v : JValue) (w : ValidationWarning),
    w ∈ hotelStarRatingWarnings v → w.message.data.head? = some 'S'
  | .num r, w, hw => by
      obtain ⟨_, heq⟩ := mem_if_singleton
        (show w ∈ (if (r < 1 || 5 < r) = true then [starRatingWarning r] else []) from hw)
      rw [heq]
      exact strHead_append _ (strHead_append _ rfl)
  | .undef, w, hw =>
      absurd (show w ∈ ([] : List ValidationWarning) from hw) (List.not_mem_nil w)
  | .null, w, hw =>
      absurd (show w ∈ ([] : List ValidationWarning) from hw) (List.not_mem_nil w)
  | .bool _, w, hw =>
      absurd (show w ∈ ([] : List ValidationWarning) from hw) (List.not_mem_nil w)
  | .str _, w, hw =>
      absurd (show w ∈ ([] : List ValidationWarning) from hw) (List.not_mem_nil w)
  | .arr _, w, hw =>
      absurd (show w ∈ ([] : List ValidationWarning) from hw) (List.not_mem_nil w)
  | .obj _, w, hw =>
      absurd (show w ∈ ([] : List ValidationWarning) from hw) (List.not_mem_nil w)

theorem hotelRatingWarnings_head (dataLayer : JValue) (w : ValidationWarning)
    (hw : w ∈ hotelRatingWarnings dataLayer) : w.message.data.head? = some 'S' := by
  simp only [hotelRatingWarnings] at hw
  split at hw
  · exact absurd hw (List.not_mem_nil w)
  · exact hotelStarRatingWarnings_head (jget (jget dataLayer "hotel") "hotelStarRating") w hw

theorem pageNameErrors_head (dataLayer : JValue) (e : ValidationError)
    (he : e ∈ pageNameErrors dataLayer) : e.message.data.head? = some 'p' := by
  simp only [pageNameErrors] at he
  split at he
  · rw [List.mem_singleton.mp he]
    rfl
  · exact absurd he (List.not_mem_nil e)

theorem bookingCurrencyErrors_head (booking : JValue) (e : ValidationError)
    (he : e ∈ bookingCurrencyErrors booking) : e.message.data.head? = some 'b' := by
  simp only [bookingCurrencyErrors] at he
  split at he
  · rw [List.mem_singleton.mp he]
    rfl
  · exact absurd he (List.not_mem_nil e)

theorem bookingDateErrors_mem_iff (booking : JValue) (e : ValidationError) :
    e ∈ bookingDateErrors booking ↔
      (jsDateLe (jsNewDate (jget booking "bookingCheckOut"))
          (jsNewDate (jget booking "bookingCheckIn")) = true
        ∧ e = checkOutBeforeCheckInError (jget booking "bookingCheckOut")) := by
  simp only [bookingDateErrors]
  split
  · next hc => simp [hc]
  · next hc => simp [hc]

theorem bookingNightsWarnings_eval (booking : JValue) (sIn sOut : String) (d1 d2 nights : Int)
    (hIn : jget booking "bookingCheckIn" = .str sIn)
    (hOut : jget booking "bookingCheckOut" = .str sOut)
    (hN : jget booking "bookingNights" = .num nights)
    (hdIn : parseIsoDate sIn = some d1)
    (hdOut : parseIsoDate sOut = some d2) :
    bookingNightsWarnings booking =
      (if nights = ceilDivInt (d2 * msPerDay - d1 * msPerDay) msPerDay then []
       else [nightsMismatchWarning (.num nights)
         (toString (ceilDivInt (d2 * msPerDay - d1 * msPerDay) msPerDay))]) := by
  simp only [bookingNightsWarnings]
  rw [hIn, hOut, hN]
  simp only [jsNewDate]
  rw [hdIn, hdOut]
  simp only [Option.map_some']
  by_cases hne : nights = ceilDivInt (d2 * msPerDay - d1 * msPerDay) msPerDay
  · simp [hne]
  · simp [hne]

/-- A booking document with ISO check-in/check-out dates and the given
`bookingNights`, as in the spec's §8 example. -/
def bfsBooking (n : Int) : JFields := JFields.ofList
  [("bookingCheckIn", .str "2024-03-10"), ("bookingCheckOut", .str "2024-03-15"),
   ("bookingNights", .num n), ("bookingAdults", .num 2), ("bookingRooms", .num 1),
   ("bookingTotal", .num 500), ("bookingCurrency", .str "EUR")]

def dlBooking (n : Int) : JValue := jobj [("booking", .obj (bfsBooking n))]

/-- C8: when `booking` is present with string check-in/check-out dates that
parse to day numbers `d1`, `d2` and a numeric `bookingNights`, the
business-rule validator emits the `booking.bookingCheckOut` ordering error
iff the check-out date is not strictly after the check-in date
(`d2 ≤ d1`), and emits the nights-mismatch warning (suggesting the
corrected value) exactly once iff `bookingNights ≠ d2 − d1`, where
`d2 − d1` is exactly `Math.ceil((checkOut − checkIn) / 86400000)` from the
source. -/
theorem validateTealiumRules_booking_invariant
    (dl : JValue) (bfs : JFields) (sIn sOut : String) (d1 d2 nights E : Int)
    (hb : jget dl "booking" = .obj bfs)
    (hIn : jget (.obj bfs) "bookingCheckIn" = .str sIn)
    (hOut : jget (.obj bfs) "bookingCheckOut" = .str sOut)
    (hdIn : parseIsoDate sIn = some d1)
    (hdOut : parseIsoDate sOut = some d2)
    (hN : jget (.obj bfs) "bookingNights" = .num nights)
    (hE : E = d2 - d1) :
    (checkOutBeforeCheckInError (.str sOut) ∈ (validateTealiumRules dl).errors ↔ d2 ≤ d1)
    ∧ (validateTealiumRules dl).warnings.count
        (nightsMismatchWarning (.num nights) (toString E)) = (if nights = E then 0 else 1)
    ∧ E = ceilDivInt (d2 * msPerDay - d1 * msPerDay) msPerDay := by
  have hceil : ceilDivInt (d2 * msPerDay - d1 * msPerDay) msPerDay = d2 - d1 := by
    unfold ceilDivInt
    rw [show msPerDay = (86400000 : Int) from rfl]
    rw [show -(d2 * 86400000 - d1 * 86400000) = (d1 - d2) * 86400000 by ring]
    rw [Int.mul_fdiv_cancel _ (by decide : (86400000 : Int) ≠ 0)]
    ring
  have hbooking : bookingChecks dl = validateBookingData (.obj bfs) := by
    unfold bookingChecks
    rw [hb]
    exact if_neg (fun h => JValue.noConfusion h)
  have hcond : jsDateLe (jsNewDate (jget (JValue.obj bfs) "bookingCheckOut"))
      (jsNewDate (jget (JValue.obj bfs) "bookingCheckIn")) = decide (d2 ≤ d1) := by
    rw [hOut, hIn]
    simp only [jsNewDate]
    rw [hdOut, hdIn]
    simp only [Option.map_some', jsDateLe]
    rw [decide_eq_decide]
    rw [show msPerDay = (86400000 : Int) from rfl]
    omega
  have herr : (validateTealiumRules dl).errors = pageNameErrors dl
      ++ checkForUndefinedValues dl "" ++ checkForStringifiedNulls dl ""
      ++ (bookingChecks dl).1 := rfl
  have hvb1 : (validateBookingData (.obj bfs)).1
      = bookingDateErrors (.obj bfs) ++ bookingCurrencyErrors (.obj bfs) := rfl
  have hwarn : (validateTealiumRules dl).warnings = currencyWarnings dl
      ++ languageWarnings dl ++ checkForPII dl "" ++ checkPriceValues dl
      ++ (bookingChecks dl).2 ++ hotelRatingWarnings dl ++ checkDateFormats dl := rfl
  have hvb2 : (validateBookingData (.obj bfs)).2 = bookingNightsWarnings (.obj bfs) := rfl
  have hheadW := nightsWarn_head (.num nights) (toString E)
  have hheadE := checkOutErr_head (.str sOut)
  refine ⟨?_, ?_, by rw [hE, hceil]⟩
  · constructor
    · intro hmem
      rw [herr, hbooking, hvb1] at hmem
      simp only [List.mem_append] at hmem
      rcases hmem with (((h | h) | h) | h | h)
      · have h2 := pageNameErrors_head dl _ h
        rw [h2] at hheadE
        exact absurd hheadE (by decide)
      · have h2 := checkForUndefinedValues_head dl "" _ h
        rw [h2] at hheadE
        exact absurd hheadE (by decide)
      · have h2 := checkForStringifiedNulls_head dl "" _ h
        rw [h2] at hheadE
        exact absurd hheadE (by decide)
      · obtain ⟨hc, _⟩ := (bookingDateErrors_mem_iff _ _).mp h
        rw [hcond] at hc
        exact of_decide_eq_true hc
      · have h2 := bookingCurrencyErrors_head _ _ h
        rw [h2] at hheadE
        exact absurd hheadE (by decide)
    · intro hle
      rw [herr, hbooking, hvb1]
      refine List.mem_append.mpr (Or.inr (List.mem_append.mpr (Or.inl ?_)))
      refine (bookingDateErrors_mem_iff _ _).mpr ⟨?_, ?_⟩
      · rw [hcond]
        exact decide_eq_true hle
      · rw [hOut]
  · have hnw := bookingNightsWarnings_eval (.obj bfs) sIn sOut d1 d2 nights hIn hOut hN hdIn hdOut
    rw [hceil, ← hE] at hnw
    rw [hwarn, hbooking, hvb2, hnw]
    simp only [List.count_append]
    have z1 : (currencyWarnings dl).count (nightsMismatchWarning (.num nights) (toString E))
        = 0 := List.count_eq_zero.mpr (fun hm => by
      have h2 := currencyWarnings_head dl _ hm
      rw [h2] at hheadW
      exact absurd hheadW (by decide))
    have z2 : (languageWarnings dl).count (nightsMismatchWarning (.num nights) (toString E))
        = 0 := List.count_eq_zero.mpr (fun hm => by
      have h2 := languageWarnings_head dl _ hm
      rw [h2] at hheadW
      exact absurd hheadW (by decide))
    have z3 : (checkForPII dl "").count (nightsMismatchWarning (.num nights) (toString E))
        = 0 := List.count_eq_zero.mpr (fun hm => by
      have h2 := checkForPII_head dl "" _ hm
      rw [h2] at hheadW
      exact absurd hheadW (by decide))
    have z4 : (checkPriceValues dl).count (nightsMismatchWarning (.num nights) (toString E))
        = 0 := List.count_eq_zero.mpr (fun hm => by
      have h2 := checkPriceValues_head dl _ hm
      rw [h2] at hheadW
      exact absurd hheadW (by decide))
    have z5 : (hotelRatingWarnings dl).count (nightsMismatchWarning (.num nights) (toString E))
        = 0 := List.count_eq_zero.mpr (fun hm => by
      have h2 := hotelRatingWarnings_head dl _ hm
      rw [h2] at hheadW
      exact absurd hheadW (by decide))
    have z6 : (checkDateFormats dl).count (nightsMismatchWarning (.num nights) (toString E))
        = 0 := List.count_eq_zero.mpr (fun hm => by
      have h2 := checkDateFormats_head dl _ hm
      rw [h2] at hheadW
      exact absurd hheadW (by decide))
    rw [z1, z2, z3, z4, z5, z6]
    by_cases hne : nights = E <;> simp [hne]

/-- C8 witness: for check-in 2024-03-10 and check-out 2024-03-15, the
ordering error is absent, `bookingNights = 4` yields exactly one
nights-mismatch warning (at `booking.bookingNights`, suggesting 5) and
`bookingNights = 5` yields none. -/
theorem validateTealiumRules_booking_invariant_witness :
    checkOutBeforeCheckInError (.str "2024-03-15") ∉ (validateTealiumRules (dlBooking 4)).errors
    ∧ (validateTealiumRules (dlBooking 4)).warnings.count
        (nightsMismatchWarning (.num 4) "5") = 1
    ∧ (validateTealiumRules (dlBooking 5)).warnings.count
        (nightsMismatchWarning (.num 5) "5") = 0
    ∧ (validateTealiumRules (dlBooking 4)).warnings.countP
        (fun w => w.path == "booking.bookingNights") = 1
    ∧ (nightsMismatchWarning (.num 4) "5").suggestion = some "Set bookingNights to 5" := by
  have h4 := validateTealiumRules_booking_invariant (dlBooking 4) (bfsBooking 4)
    "2024-03-10" "2024-03-15" 19792 19797 4 5 rfl rfl rfl (by decide) (by decide) rfl (by decide)
  have h5 := validateTealiumRules_booking_invariant (dlBooking 5) (bfsBooking 5)
    "2024-03-10" "2024-03-15" 19792 19797 5 5 rfl rfl rfl (by decide) (by decide) rfl (by decide)
  obtain ⟨hiff4, hcnt4, _⟩ := h4
  obtain ⟨_, hcnt5, _⟩ := h5
  rw [show ("5" : String) = toString (5 : Int) from by decide] at *
  refine ⟨fun hmem => absurd (hiff4.mp hmem) (by decide), ?_, ?_, by decide, by decide⟩
  · rw [hcnt4]
    decide
  · rw [hcnt5]
    decide
